import Mathlib

/-!
Verification development for the PostGenerator repository.

Each section embeds one component of the source (shallow embedding:
Python functions become Lean functions, mutable objects become explicit
state records, network calls and SQL queries become oracle parameters)
and proves or refutes the specified properties about it.
-/

set_option maxHeartbeats 1000000

/-! ## Slot Allocator (`src/automation_manager.py`, `AutomationManager._find_next_available_slot`)

Dates are modelled as day numbers (`Nat`), a slot as a `(date, hour)` pair
(the code always sets `minute=0`).  The configuration values
`AUTOMATION_MIN_DAYS_BETWEEN_POSTS` and `AUTOMATION_SCHEDULING_HOURS[0]`
are the parameters `d` and `firstHour`.
-/

namespace Automation

/-- A schedule slot: calendar date (day number) and hour of day. -/
structure Slot where
  date : Nat
  hour : Nat
deriving DecidableEq, Repr

/-- `AutomationManager._find_next_available_slot`:
`start_date = max(today, latest.scheduled_for.date())` when a latest
scheduled post exists (else `today`); the slot is
`start_date + AUTOMATION_MIN_DAYS_BETWEEN_POSTS` days at the first
configured scheduling hour.  The code contains no collision check. -/
def findNextAvailableSlot (d firstHour today : Nat) (latestScheduled : Option Slot) : Slot :=
  let startDate :=
    match latestScheduled with
    | none => today
    | some s => max today s.date
  { date := startDate + d, hour := firstHour }

/-- `k` sequential allocations, each allocation's slot becoming the
most-recently-scheduled slot seen by the next (the claim's
no-external-interference premise). -/
def allocRun (d firstHour today : Nat) : Nat → Option Slot → List Slot
  | 0, _ => []
  | k + 1, prev =>
    let s := findNextAvailableSlot d firstHour today prev
    s :: allocRun d firstHour today k (some s)

end Automation

/-! ## Content post-processing (`src/post_generator.py`, `PostGenerator._process_generated_content`)

The text is modelled as `List Char`.  Each Python string operation used by
`_process_generated_content` is embedded as a fuel-indexed structurally
recursive scanner (fuel is the input length; every step consumes at least
one character, so the fuel never runs out on the wrapper's call):
`str.replace(old, '')`, `re.sub(r'<[^>]+>', '')`, `str.split('. ')`,
`re.sub(r'#\s+(\w+)', r'#\1')`, `re.sub(r'\n{3,}', '\n\n')` and
`str.strip()`.  `config.MAX_POST_LENGTH` is the parameter `maxLen`
(an environment variable, default 3000).
-/

namespace PostGen

/-- Python `str.isspace`-class characters for `strip` / regex `\s`
(ASCII: space, tab, newline, carriage return, vertical tab, form feed). -/
def isPySpace (c : Char) : Bool :=
  c = ' ' ∨ c = '\t' ∨ c = '\n' ∨ c = '\r' ∨ c = Char.ofNat 11 ∨ c = Char.ofNat 12

/-- Regex `\w` (ASCII letters, digits, underscore). -/
def isWordChar (c : Char) : Bool :=
  ('a' ≤ c ∧ c ≤ 'z') ∨ ('A' ≤ c ∧ c ≤ 'Z') ∨ ('0' ≤ c ∧ c ≤ '9') ∨ c = '_'

/-- The backquote character used by the markdown code-fence marker. -/
def backtick : Char := Char.ofNat 96

/-- Pattern `**` of `content.replace('**', '')`. -/
def starStar : List Char := ['*', '*']

/-- Pattern `*` of `.replace('*', '')`. -/
def starPat : List Char := ['*']

/-- The three-backquote code-fence pattern of the third `.replace`. -/
def fencePat : List Char := [backtick, backtick, backtick]

/-- The sentence separator of `content.split('. ')`. -/
def dotSpace : List Char := ['.', ' ']

/-- The ellipsis marker appended after truncation. -/
def dots : List Char := ['.', '.', '.']

/-- One pass of Python `str.replace(pat, '')` (non-overlapping, left to
right), with explicit fuel. -/
def replFuel (pat : List Char) : Nat → List Char → List Char
  | 0, l => l
  | _ + 1, [] => []
  | f + 1, c :: rest =>
    if pat.isPrefixOf (c :: rest) ∧ pat ≠ [] then
      replFuel pat f ((c :: rest).drop pat.length)
    else c :: replFuel pat f rest

/-- Python `str.replace(pat, '')` for a non-empty pattern. -/
def pyReplace (pat l : List Char) : List Char := replFuel pat l.length l

/-- Scan for the first `>` and return the suffix after it. -/
def dropTagGo : List Char → Option (List Char)
  | [] => none
  | c :: rest => if c = '>' then some rest else dropTagGo rest

/-- Given the text following a `<`, return the suffix after the matching
`>` of a `<[^>]+>` match, or `none` when the regex does not match here
(immediate `>`, or no closing `>`). -/
def dropTag : List Char → Option (List Char)
  | [] => none
  | c :: rest => if c = '>' then none else dropTagGo rest

/-- `re.sub(r'<[^>]+>', '', content)` with explicit fuel. -/
def removeHtmlF : Nat → List Char → List Char
  | 0, l => l
  | _ + 1, [] => []
  | f + 1, c :: rest =>
    if c = '<' then
      match dropTag rest with
      | some after => removeHtmlF f after
      | none => c :: removeHtmlF f rest
    else c :: removeHtmlF f rest

/-- `re.sub(r'<[^>]+>', '', content)`. -/
def removeHtml (l : List Char) : List Char := removeHtmlF l.length l

/-- The markdown/HTML stripping prelude of `_process_generated_content`:
`content.replace('**', '').replace('*', '')` followed by the code-fence
replace and the HTML-tag removal. -/
def markupStripped (content : List Char) : List Char :=
  removeHtml (pyReplace fencePat (pyReplace starPat (pyReplace starStar content)))

/-- Python `str.split(sep)` for a non-empty separator, with explicit fuel. -/
def splitSepF (sep : List Char) : Nat → List Char → List (List Char)
  | 0, l => [l]
  | _ + 1, [] => [[]]
  | f + 1, c :: rest =>
    if sep.isPrefixOf (c :: rest) ∧ sep ≠ [] then
      [] :: splitSepF sep f ((c :: rest).drop sep.length)
    else
      match splitSepF sep f rest with
      | [] => [[c]]
      | s :: ss => (c :: s) :: ss

/-- Python `content.split('. ')`-style splitting. -/
def splitSep (sep l : List Char) : List (List Char) := splitSepF sep l.length l

/-- The sentence-accumulation loop of the truncation branch:
`truncated += sentence + ". "` while
`len(truncated) + len(sentence) + 2 <= MAX_POST_LENGTH - 50`, else break. -/
def truncLoop (maxLen : Nat) : List (List Char) → List Char → List Char
  | [], acc => acc
  | s :: ss, acc =>
    if (acc.length + s.length + 2 : Int) ≤ (maxLen : Int) - 50 then
      truncLoop maxLen ss (acc ++ s ++ dotSpace)
    else acc

/-- Python `str.strip()` (default whitespace, both ends). -/
def pyStrip (l : List Char) : List Char :=
  ((l.dropWhile isPySpace).reverse.dropWhile isPySpace).reverse

/-- Whether the head of the remainder is a `\w` character. -/
def headIsWord : List Char → Bool
  | [] => false
  | c :: _ => isWordChar c

/-- `re.sub(r'#\s+(\w+)', r'#\1', content)` with explicit fuel: after a
`#`, a non-empty whitespace run followed by a word character is a match;
the whitespace is dropped and scanning resumes after the word run. -/
def fixHashtagsF : Nat → List Char → List Char
  | 0, l => l
  | _ + 1, [] => []
  | f + 1, c :: rest =>
    if c = '#' then
      if ¬ (rest.takeWhile isPySpace).isEmpty ∧ headIsWord (rest.dropWhile isPySpace) then
        '#' :: ((rest.dropWhile isPySpace).takeWhile isWordChar ++
          fixHashtagsF f ((rest.dropWhile isPySpace).dropWhile isWordChar))
      else c :: fixHashtagsF f rest
    else c :: fixHashtagsF f rest

/-- `re.sub(r'#\s+(\w+)', r'#\1', content)`. -/
def fixHashtags (l : List Char) : List Char := fixHashtagsF l.length l

/-- `re.sub(r'\n{3,}', '\n\n', content)` with explicit fuel: a maximal
run of `3` or more newlines is replaced by exactly two. -/
def collapseNlF : Nat → List Char → List Char
  | 0, l => l
  | _ + 1, [] => []
  | f + 1, c :: rest =>
    if c = '\n' then
      if 2 ≤ (rest.takeWhile (fun x => x = '\n')).length then
        '\n' :: '\n' :: collapseNlF f (rest.dropWhile (fun x => x = '\n'))
      else (c :: rest.takeWhile (fun x => x = '\n')) ++
        collapseNlF f (rest.dropWhile (fun x => x = '\n'))
    else c :: collapseNlF f rest

/-- `re.sub(r'\n{3,}', '\n\n', content)`. -/
def collapseNl (l : List Char) : List Char := collapseNlF l.length l

/-- `PostGenerator._process_generated_content`: strip markdown markers and
HTML tags, truncate at a sentence boundary (leaving room for the ellipsis)
when the stripped text exceeds `maxLen`, normalize hashtag spacing,
collapse runs of 3+ newlines to 2, and strip surrounding whitespace. -/
def processGeneratedContent (maxLen : Nat) (content : List Char) : List Char :=
  pyStrip (collapseNl (fixHashtags
    (if maxLen < (markupStripped content).length then
      pyStrip (truncLoop maxLen (splitSep dotSpace (markupStripped content)) []) ++ dots
    else markupStripped content)))

/-- The text ends with the ellipsis marker `...`. -/
def EndsWithDots (l : List Char) : Prop := ∃ m, l = m ++ dots

instance (l : List Char) : Decidable (EndsWithDots l) :=
  decidable_of_iff (dots.isSuffixOf l = true) (by
    rw [List.isSuffixOf_iff_suffix]
    constructor
    · rintro ⟨t, ht⟩
      exact ⟨t, ht.symm⟩
    · rintro ⟨m, hm⟩
      exact ⟨m, hm.symm⟩)

end PostGen


/-! ## Variant generation (`src/post_generator.py`, `PostGenerator.generate`)

Clients are booleans (initialized or not); each backend call is an oracle
`outcome i b` giving the processed content of variant `i` on backend `b`,
or `none` for a raised-and-caught exception (quota, safety filter,
network).  Floating-point generation metadata (temperature) is omitted.
-/

namespace Gen

/-- An interchangeable generation backend. -/
inductive Backend
  | claude
  | gemini
  | openai
deriving DecidableEq, Repr

/-- Which AI clients were initialized (`claude_client`, `gemini_client`,
`openai_client` non-None). -/
structure Clients where
  claude : Bool
  gemini : Bool
  openai : Bool
deriving DecidableEq, Repr

/-- The backend-selection chain inside the per-variant loop of
`PostGenerator.generate`: the preferred model when its client exists,
otherwise the fallback order claude, gemini, openai; `none` models the
`raise ValueError("No AI client available")` arm (caught by the loop's
`except`). -/
def pickClient (preferred : String) (cl : Clients) : Option Backend :=
  if preferred = "claude" ∧ cl.claude then some .claude
  else if preferred = "openai" ∧ cl.openai then some .openai
  else if preferred = "gemini" ∧ cl.gemini then some .gemini
  else if cl.claude then some .claude
  else if cl.gemini then some .gemini
  else if cl.openai then some .openai
  else none

/-- A generated variant (content, backend used, 1-based variant number). -/
structure GeneratedPost where
  content : String
  modelUsed : Backend
  variantNumber : Nat
deriving DecidableEq, Repr

/-- `PostGenerator.generate`: one loop iteration per requested variant;
a failing iteration (no client, or the backend call raising) is caught
and the loop continues; after the loop an empty `posts` list raises
`ValueError("Failed to generate any posts...")`, else the partial list is
returned. -/
def generate (cl : Clients) (preferred : String) (numVariants : Nat)
    (outcome : Nat → Backend → Option String) : Except String (List GeneratedPost) :=
  let posts := (List.range numVariants).filterMap fun i =>
    match pickClient preferred cl with
    | none => none
    | some b => (outcome i b).map fun c => ⟨c, b, i + 1⟩
  if posts.isEmpty then .error "Failed to generate any posts" else .ok posts

/-- Number of backend API attempts in one `generate` call: one per loop
iteration when a client is available, none when every iteration raises
`ValueError` before reaching a backend. -/
def genAttempts (cl : Clients) (preferred : String) (numVariants : Nat) : Nat :=
  if (pickClient preferred cl).isSome then numVariants else 0

/-- Number of variants that generate successfully. -/
def genSuccesses (cl : Clients) (preferred : String) (numVariants : Nat)
    (outcome : Nat → Backend → Option String) : Nat :=
  (List.range numVariants).countP fun i =>
    match pickClient preferred cl with
    | none => false
    | some b => (outcome i b).isSome

end Gen

/-! ## Shared Python-semantics helpers -/

namespace Py

/-- Python string truthiness. -/
def truthyStr (s : String) : Bool := ¬ s = ""

/-- Python truthiness of a `dict.get` result (None or a string value). -/
def truthyOpt (o : Option String) : Bool :=
  match o with
  | none => false
  | some s => truthyStr s

/-- Python `a or b` for `dict.get` results. -/
def pyOr (a b : Option String) : Option String := if truthyOpt a then a else b

/-- Python `pat in s` (substring containment). -/
def containsSub (pat : List Char) : List Char → Bool
  | [] => pat.isEmpty
  | c :: rest => pat.isPrefixOf (c :: rest) || containsSub pat rest

/-- The `'urn:li:'` marker the connector requires inside a post URN. -/
def urnPat : List Char := "urn:li:".toList

end Py

/-! ## Fallback-chain publisher (`src/linkedin_client.py`, `LinkedInPublisher`)

The mutable publisher object becomes `ClientState`; each `publish_post`
call takes a `CallEnv` oracle (current time, whether a fresh login would
succeed, and the `post_update` response — `none` models a raised
exception).  `hasCreds` models `LINKEDIN_EMAIL and LINKEDIN_PASSWORD`
being set, `libAvail` the `linkedin_api` import succeeding, `hasOauth`
the OAuth client id/secret pair.  Two network counters are returned:
login attempts (the `Linkedin(...)` constructor reaching the network)
and `post_update` calls (network publish attempts).
-/

namespace LClient

/-- `PublishResult` dataclass of `linkedin_client.py`. -/
structure PublishResult where
  success : Bool
  postId : Option String := none
  postUrl : Option String := none
  errorMessage : Option String := none
  methodUsed : Option String := none
deriving DecidableEq, Repr

/-- Shape of a `post_update` response dictionary: the identifier-bearing
keys probed by `_extract_post_id_from_response` (a key that is present
holds a string value), the nested `updateInfo` dict (present or not, with
or without an `updateKey`), plus a flag for any other keys (they only
affect dict truthiness). -/
structure ClientResponse where
  id : Option String := none
  activityId : Option String := none
  shareId : Option String := none
  updateKey : Option String := none
  updateInfo : Option (Option String) := none
  hasOtherKeys : Bool := false
deriving DecidableEq, Repr

/-- The empty response dictionary. -/
def emptyClientResponse : ClientResponse := {}

/-- Python truthiness of the response dict (`if not response`). -/
def responseTruthy (r : ClientResponse) : Bool :=
  r.id.isSome || r.activityId.isSome || r.shareId.isSome || r.updateKey.isSome ||
    r.updateInfo.isSome || r.hasOtherKeys

/-- `LinkedInPublisher._extract_post_id_from_response`: probe the
identifier keys in order, then the nested `updateInfo.updateKey`. -/
def extractPostIdFromResponse (r : ClientResponse) : Option String :=
  if responseTruthy r = false then none
  else if r.id.isSome then r.id
  else if r.activityId.isSome then r.activityId
  else if r.shareId.isSome then r.shareId
  else if r.updateKey.isSome then r.updateKey
  else
    match r.updateInfo with
    | some (some k) => some k
    | _ => none

/-- `LinkedInPublisher._build_post_url`. -/
def buildPostUrl (pid : String) : Option String :=
  if Py.truthyStr pid = false then none
  else some ("https://www.linkedin.com/feed/update/" ++ pid ++ "/")

/-- `post_url = self._build_post_url(post_id) if post_id else None`. -/
def buildUrlFromOpt (pid : Option String) : Option String :=
  match pid with
  | some p => if Py.truthyStr p then buildPostUrl p else none
  | none => none

/-- Mutable publisher fields used by rate limiting and authentication. -/
structure ClientState where
  postsToday : Nat
  lastPostTime : Option Int
  authenticated : Bool
deriving DecidableEq, Repr

/-- A fresh `LinkedInPublisher()`. -/
def initialClientState : ClientState := ⟨0, none, false⟩

/-- Per-call environment: wall-clock time (seconds), whether a login
attempted now would succeed, and the `post_update` response (`none`
models a raised exception, caught inside the method). -/
structure CallEnv where
  now : Int
  authReturnsTrue : Bool
  postUpdateResponse : Option ClientResponse
deriving DecidableEq, Repr

/-- `LinkedInPublisher.can_post_now`: daily-cap check first, then the
inter-post delay since the last successful publish. -/
def canPostNow (dailyLimit delaySeconds : Nat) (st : ClientState) (now : Int) :
    Bool × String :=
  if st.postsToday ≥ dailyLimit then (false, "Daily limit reached")
  else
    match st.lastPostTime with
    | some t =>
      if now - t < (delaySeconds : Int) then (false, "Must wait between posts")
      else (true, "")
    | none => (true, "")

/-- `LinkedInPublisher.authenticate` (linkedin_client): missing
credentials return False without network; a missing library raises before
the network; otherwise one network login happens and `_authenticated` is
set from its outcome.  Returns (result, new state, login attempts). -/
def authenticate (hasCreds libAvail : Bool) (st : ClientState) (env : CallEnv) :
    Bool × ClientState × Nat :=
  if hasCreds = false then (false, st, 0)
  else if libAvail = false then (false, { st with authenticated := false }, 0)
  else if env.authReturnsTrue then (true, { st with authenticated := true }, 1)
  else (false, { st with authenticated := false }, 1)

/-- Outcome of one publishing-method call: its result, the publisher's
authentication flag afterwards, and the two network counters. -/
structure MethodStep where
  result : PublishResult
  authenticated : Bool
  loginAttempts : Nat
  postUpdateCalls : Nat
deriving DecidableEq, Repr

/-- The `post_update` part of `_publish_with_unofficial_api`: a raised
exception becomes a failure result; any returned response becomes
`success=True` with whatever id could be extracted (no structural
validation). -/
def postUpdatePart (env : CallEnv) (logins : Nat) : MethodStep :=
  match env.postUpdateResponse with
  | none =>
    { result := { success := false, errorMessage := some "Unofficial API error",
                  methodUsed := some "unofficial_api" },
      authenticated := true, loginAttempts := logins, postUpdateCalls := 1 }
  | some r =>
    { result := { success := true, postId := extractPostIdFromResponse r,
                  postUrl := buildUrlFromOpt (extractPostIdFromResponse r),
                  methodUsed := some "unofficial_api" },
      authenticated := true, loginAttempts := logins, postUpdateCalls := 1 }

/-- `LinkedInPublisher._publish_with_unofficial_api`. -/
def publishWithUnofficialApi (hasCreds libAvail : Bool) (st : ClientState)
    (env : CallEnv) : MethodStep :=
  if st.authenticated then postUpdatePart env 0
  else
    match authenticate hasCreds libAvail st env with
    | (true, _, n) => postUpdatePart env n
    | (false, st', n) =>
      { result := { success := false, errorMessage := some "Authentication failed",
                    methodUsed := some "unofficial_api" },
        authenticated := st'.authenticated, loginAttempts := n, postUpdateCalls := 0 }

/-- `LinkedInPublisher._publish_with_official_api`: always a failure
(OAuth unconfigured, or not implemented); no network. -/
def publishWithOfficialApi (hasOauth : Bool) : PublishResult :=
  if hasOauth = false then
    { success := false, errorMessage := some "OAuth credentials not configured",
      methodUsed := some "official_api" }
  else
    { success := false,
      errorMessage := some "Official API not yet implemented - requires OAuth setup",
      methodUsed := some "official_api" }

/-- `LinkedInPublisher._prepare_manual_workflow`: unconditionally
successful, with a synthetic `manual_<epoch>` post id and no network. -/
def prepareManualWorkflow (env : CallEnv) : PublishResult :=
  { success := true, postId := some ("manual_" ++ toString env.now),
    postUrl := none, methodUsed := some "manual_workflow" }

/-- `LinkedInPublisher.publish_post`: rate-limit pre-check, then the
method chain unofficial → official → manual, stopping at the first
success; on success the rate counters advance.  Returns
(result, state, login attempts, `post_update` calls). -/
def publishPost (dailyLimit delaySeconds : Nat) (hasCreds libAvail hasOauth : Bool)
    (st : ClientState) (env : CallEnv) :
    PublishResult × ClientState × Nat × Nat :=
  match canPostNow dailyLimit delaySeconds st env.now with
  | (false, reason) =>
    ({ success := false, errorMessage := some ("Rate limit: " ++ reason),
       methodUsed := some "rate_limit_check" }, st, 0, 0)
  | (true, _) =>
    let step := publishWithUnofficialApi hasCreds libAvail st env
    let stA : ClientState := { st with authenticated := step.authenticated }
    if step.result.success then
      (step.result,
        { postsToday := st.postsToday + 1, lastPostTime := some env.now,
          authenticated := step.authenticated },
        step.loginAttempts, step.postUpdateCalls)
    else
      let r2 := publishWithOfficialApi hasOauth
      if r2.success then
        (r2, { postsToday := st.postsToday + 1, lastPostTime := some env.now,
               authenticated := step.authenticated },
          step.loginAttempts, step.postUpdateCalls)
      else
        let r3 := prepareManualWorkflow env
        if r3.success then
          (r3, { postsToday := st.postsToday + 1, lastPostTime := some env.now,
                 authenticated := step.authenticated },
            step.loginAttempts, step.postUpdateCalls)
        else
          ({ success := false, errorMessage := some "All publishing methods failed",
             methodUsed := some "all_methods" }, stA,
            step.loginAttempts, step.postUpdateCalls)

/-- The aggregate outcome of a sequence of `publish_post` calls on one
publisher instance. -/
structure RunOut where
  results : List PublishResult
  state : ClientState
  loginAttempts : Nat
  postUpdateCalls : Nat
deriving DecidableEq, Repr

/-- Sequential `publish_post` calls on one publisher instance. -/
def runPublishes (dailyLimit delaySeconds : Nat) (hasCreds libAvail hasOauth : Bool) :
    ClientState → List CallEnv → RunOut
  | st, [] => ⟨[], st, 0, 0⟩
  | st, e :: es =>
    let out := publishPost dailyLimit delaySeconds hasCreds libAvail hasOauth st e
    let rest := runPublishes dailyLimit delaySeconds hasCreds libAvail hasOauth out.2.1 es
    ⟨out.1 :: rest.results, rest.state,
      out.2.2.1 + rest.loginAttempts, out.2.2.2 + rest.postUpdateCalls⟩

end LClient


/-! ## Replacement publisher (`src/linkedin_connector.py`, `LinkedInPublisher`)

State is the pair of flags `_authenticated` / `_auth_attempted`; the
per-call oracle carries library availability, credential presence, the
login outcome, which probed client methods exist, and the API response
(`none` models a raised exception).  The returned `Nat` counts network
login attempts (the `Linkedin(...)` constructor).
-/

namespace LConn

/-- `PublishResult` dataclass of `linkedin_connector.py` (default
`method_used="unofficial_api"`). -/
structure PublishResult where
  success : Bool
  postId : Option String := none
  postUrl : Option String := none
  errorMessage : Option String := none
  methodUsed : Option String := some "unofficial_api"
deriving DecidableEq, Repr

/-- Shape of an API response dictionary as probed by
`_validate_and_build_result`: the `activity` and `id` keys (present keys
hold string values) plus a flag for any other keys (they only affect
dict truthiness). -/
structure ConnResponse where
  activity : Option String := none
  id : Option String := none
  hasOtherKeys : Bool := false
deriving DecidableEq, Repr

/-- The empty response dictionary. -/
def emptyConnResponse : ConnResponse := {}

/-- The failure result of `_validate_and_build_result`. -/
def invalidResponseResult (method : String) : PublishResult :=
  { success := false, errorMessage := some "Publish failed. Invalid API response",
    methodUsed := some method }

/-- `LinkedInPublisher._validate_and_build_result`: success only when the
response is a truthy dict carrying an `activity` or `id` key whose
(`or`-selected) value is truthy and contains `urn:li:`; the canonical
feed URL is built from the URN. -/
def validateAndBuildResult (r : ConnResponse) (method : String) : PublishResult :=
  if (r.activity.isSome || r.id.isSome || r.hasOtherKeys) &&
      (r.activity.isSome || r.id.isSome) then
    match Py.pyOr r.activity r.id with
    | some urn =>
      if Py.truthyStr urn && Py.containsSub Py.urnPat urn.toList then
        { success := true, postId := some urn,
          postUrl := some ("https://www.linkedin.com/feed/update/" ++ urn ++ "/"),
          methodUsed := some method }
      else invalidResponseResult method
    | none => invalidResponseResult method
  else invalidResponseResult method

/-- `_authenticated` / `_auth_attempted` of one publisher instance. -/
structure ConnState where
  authenticated : Bool
  authAttempted : Bool
deriving DecidableEq, Repr

/-- A fresh `LinkedInPublisher(email, password)`. -/
def initialConnState : ConnState := ⟨false, false⟩

/-- Per-call environment of the connector publisher. -/
structure ConnEnv where
  libAvail : Bool
  hasCreds : Bool
  loginSucceeds : Bool
  textMethodAvail : Bool
  linkMethodAvail : Bool
  apiResponse : Option ConnResponse
deriving DecidableEq, Repr

/-- `LinkedInPublisher.authenticate` (connector): an authenticated
session is reused; after a previous failed attempt it returns `False`
immediately (`_auth_attempted` cache); otherwise it marks the attempt,
then the library/credential checks fail without network, and a real
login reaches the network once.  Returns (result, state, login
attempts). -/
def connAuthenticate (st : ConnState) (env : ConnEnv) : Bool × ConnState × Nat :=
  if st.authenticated then (true, st, 0)
  else if st.authAttempted then (false, st, 0)
  else if env.libAvail = false then (false, ⟨false, true⟩, 0)
  else if env.hasCreds = false then (false, ⟨false, true⟩, 0)
  else if env.loginSucceeds then (true, ⟨true, true⟩, 1)
  else (false, ⟨false, true⟩, 1)

/-- `LinkedInPublisher._publish_text_post`: probe the candidate method
names; with none present return the compatibility error; a raised call
becomes an API-error failure; otherwise validate the response.  (The
name of the method found first is irrelevant here and fixed.) -/
def publishTextPost (env : ConnEnv) : PublishResult :=
  if env.textMethodAvail = false then
    { success := false,
      errorMessage := some "No valid method for text posting found" }
  else
    match env.apiResponse with
    | none => { success := false, errorMessage := some "API error (text post)" }
    | some r => validateAndBuildResult r "create_ugc_post"

/-- `LinkedInPublisher._publish_link_share`, same structure as the text
path with its own method-name list. -/
def publishLinkShare (env : ConnEnv) : PublishResult :=
  if env.linkMethodAvail = false then
    { success := false,
      errorMessage := some "No valid method for link sharing found" }
  else
    match env.apiResponse with
    | none => { success := false, errorMessage := some "API error (link share)" }
    | some r => validateAndBuildResult r "create_share"

/-- `LinkedInPublisher.publish_post` (connector): authenticate lazily,
then route to the link-share or text-only path.  Returns
(result, state, login attempts). -/
def connPublishPost (st : ConnState) (env : ConnEnv) (hasLink : Bool) :
    PublishResult × ConnState × Nat :=
  if st.authenticated then
    ((if hasLink then publishLinkShare env else publishTextPost env), st, 0)
  else
    match connAuthenticate st env with
    | (true, st', n) =>
      ((if hasLink then publishLinkShare env else publishTextPost env), st', n)
    | (false, st', n) =>
      ({ success := false, errorMessage := some "Authentication failed." }, st', n)

end LConn

/-! ## Post rows and their lifecycle updates (`src/database.py`)

One `posts` row, with the columns the lifecycle claims are about.
Timestamps are `Nat`.
-/

namespace Db

/-- The lifecycle-relevant columns of a `posts` row. -/
structure PostRec where
  status : String
  scheduledFor : Option Nat
  publishedAt : Option Nat
  linkedinPostId : Option String
  linkedinPostUrl : Option String
  notes : Option String
deriving DecidableEq, Repr

/-- `Database.create_post`: a new row with the given status;
`scheduled_for`, `published_at`, the LinkedIn reference columns and
`notes` start NULL (the constructor sets none of them). -/
def createPost (status : String) : PostRec :=
  { status := status, scheduledFor := none, publishedAt := none,
    linkedinPostId := none, linkedinPostUrl := none, notes := none }

/-- `Database.schedule_post` on the row: set `scheduled_for` and move the
status to `scheduled`.  (The companion `scheduled_posts` bookkeeping row
is modelled in the scheduler section.) -/
def schedulePost (t : Nat) (p : PostRec) : PostRec :=
  { p with scheduledFor := some t, status := "scheduled" }

/-- `Database.mark_post_published` on the row: status `published`,
`published_at` now, and the LinkedIn reference columns set to whatever
the publish result carried (possibly None).  `scheduled_for` is not
touched. -/
def markPostPublished (now : Nat) (lid lurl : Option String) (p : PostRec) : PostRec :=
  { p with status := "published", publishedAt := some now,
           linkedinPostId := lid, linkedinPostUrl := lurl }

/-- The `Database.update_post(post_id, status='failed', notes=...)` call
made by the scheduler's failure path: set exactly those attributes. -/
def updatePostFailed (notes : String) (p : PostRec) : PostRec :=
  { p with status := "failed", notes := some notes }

/-- The record invariant as the specification states it. -/
def InvClaimed (p : PostRec) : Prop :=
  (¬ p.scheduledFor = none ↔ p.status = "scheduled") ∧
  ((¬ p.publishedAt = none ∧ ¬ p.linkedinPostId = none ∧ ¬ p.linkedinPostUrl = none) ↔
    p.status = "published")

instance (p : PostRec) : Decidable (InvClaimed p) := by
  unfold InvClaimed
  infer_instance

/-- The record invariant the code actually maintains. -/
def InvPost (p : PostRec) : Prop :=
  (p.status = "scheduled" → ¬ p.scheduledFor = none) ∧
  (p.status = "published" → ¬ p.publishedAt = none)

instance (p : PostRec) : Decidable (InvPost p) := by
  unfold InvPost
  infer_instance

end Db

/-! ## Scheduled-queue processing (`src/database.py` + `src/linkedin_connector.py`, `LinkedInScheduler.process_scheduled_posts`)

The database becomes a list of post rows (each with its integer id and
origin) plus the `scheduled_posts` bookkeeping rows.  The publish outcome
of each due post is an oracle keyed by post id.
-/

namespace Sched

/-- A `posts` row with its primary key. -/
structure QPost where
  id : Nat
  row : Db.PostRec
deriving DecidableEq, Repr

/-- A `scheduled_posts` bookkeeping row. -/
structure SchedEntry where
  postId : Nat
  scheduledTime : Nat
  status : String
deriving DecidableEq, Repr

/-- The two tables the queue processor touches. -/
structure SDb where
  posts : List QPost
  entries : List SchedEntry
deriving DecidableEq, Repr

/-- `Database.get_posts_to_publish`: posts with status `scheduled` whose
id has a `pending` bookkeeping row due by `now`. -/
def getPostsToPublish (db : SDb) (now : Nat) : List QPost :=
  db.posts.filter fun p =>
    (p.row.status == "scheduled") &&
      db.entries.any fun e =>
        (e.postId == p.id) && (e.status == "pending") && decide (e.scheduledTime ≤ now)

/-- The `.first()` update inside `mark_post_published`: flip the first
pending bookkeeping row of this post to `published`. -/
def markFirstPendingEntry (pid : Nat) : List SchedEntry → List SchedEntry
  | [] => []
  | e :: es =>
    if e.postId = pid ∧ e.status = "pending" then { e with status := "published" } :: es
    else e :: markFirstPendingEntry pid es

/-- `Database.mark_post_published` at the database level (the row update
of the `Db` section applied to the post's id, plus the bookkeeping row). -/
def dbMarkPostPublished (db : SDb) (pid now : Nat) (lid lurl : Option String) : SDb :=
  { posts := db.posts.map fun q =>
      if q.id = pid then { q with row := Db.markPostPublished now lid lurl q.row } else q,
    entries := markFirstPendingEntry pid db.entries }

/-- `Database.update_post(post_id, status='failed', notes=...)` at the
database level. -/
def dbUpdatePostFailed (db : SDb) (pid : Nat) (notes : String) : SDb :=
  { db with posts := db.posts.map fun q =>
      if q.id = pid then { q with row := Db.updatePostFailed notes q.row } else q }

/-- Publish outcome of one due post (the connector's `publish_post`
result, abstracted by post id; a raised exception is a failure too). -/
structure PubOutcome where
  success : Bool
  pid : Option String
  purl : Option String
  errMsg : String
deriving DecidableEq, Repr

/-- One per-post line of the processor's result list. -/
structure RunResultEntry where
  postId : Nat
  status : String
deriving DecidableEq, Repr

/-- The body of the processor's loop for one due post. -/
def processPost (now : Nat) (outcome : Nat → PubOutcome) (db : SDb) (q : QPost) :
    RunResultEntry × SDb :=
  if (outcome q.id).success then
    (⟨q.id, "published"⟩,
      dbMarkPostPublished db q.id now (outcome q.id).pid (outcome q.id).purl)
  else (⟨q.id, "failed"⟩, dbUpdatePostFailed db q.id (outcome q.id).errMsg)

/-- The processor's loop over the pre-fetched due posts. -/
def processList (now : Nat) (outcome : Nat → PubOutcome) :
    SDb → List QPost → List RunResultEntry × SDb
  | db, [] => ([], db)
  | db, q :: qs =>
    let step := processPost now outcome db q
    let rest := processList now outcome step.2 qs
    (step.1 :: rest.1, rest.2)

/-- `LinkedInScheduler.process_scheduled_posts`: fetch the due posts;
with none, return immediately; with a failed authentication, return the
empty result list without processing; otherwise process sequentially. -/
def processScheduledPosts (db : SDb) (now : Nat) (authOk : Bool)
    (outcome : Nat → PubOutcome) : List RunResultEntry × SDb :=
  if (getPostsToPublish db now).isEmpty then ([], db)
  else if authOk = false then ([], db)
  else processList now outcome db (getPostsToPublish db now)

end Sched

/-! ## Automation run (`src/automation_manager.py`, `AutomationManager.run`)

Sources and the post table become lists; extraction validity, generation
success and the allocated slot are oracles keyed by source id (the slot
value itself is analysed in the Slot Allocator section and is irrelevant
to the claims here).  Times are hours as integers, so the recheck
interval is 24.
-/

namespace Auto

/-- An automation source row. -/
structure AutoSource where
  id : Nat
  url : String
  lastCheckedAt : Option Int
  active : Bool
deriving DecidableEq, Repr

/-- A post row tagged with the source it was generated from (the code
stores this provenance in the post's `sources` JSON column). -/
structure AutoPost where
  srcId : Nat
  row : Db.PostRec
deriving DecidableEq, Repr

/-- The tables the automation run touches. -/
structure AutoDb where
  sources : List AutoSource
  posts : List AutoPost
deriving DecidableEq, Repr

/-- The per-run environment: wall clock (hours), the force flag and the
per-source oracles. -/
structure AutoEnv where
  now : Int
  force : Bool
  extractValid : Nat → Bool
  genOk : Nat → Bool
  slotFor : Nat → Nat

/-- Modelled from the spec: `Database.get_active_automation_sources` is
called by `AutomationManager.run` and the UI pages but is absent from
this snapshot's `database.py`; per spec §3/§6 (Source has an active
flag; persistence offers Source CRUD) it returns the sources whose
active flag is set. -/
def getActiveAutomationSources (db : AutoDb) : List AutoSource :=
  db.sources.filter (·.active)

/-- Modelled from the spec: `Database.update_automation_source` is
likewise absent from this snapshot's `database.py`; per spec §3
(`Source.last_checked_at`) it sets the given source's `last_checked_at`
column. -/
def updateAutomationSource (db : AutoDb) (sid : Nat) (t : Int) : AutoDb :=
  { db with sources := db.sources.map fun s =>
      if s.id = sid then { s with lastCheckedAt := some t } else s }

/-- The recheck-interval guard: skip a source checked within 24 hours
unless the run is forced. -/
def skipSource (env : AutoEnv) (s : AutoSource) : Bool :=
  !env.force &&
    (match s.lastCheckedAt with
     | some t => decide (env.now - t < 24)
     | none => false)

/-- The run's per-source counters and evolving database. -/
structure RunState where
  db : AutoDb
  created : Nat
  skipped : Nat
  failed : Nat
deriving Repr

/-- One iteration of the per-source loop in `AutomationManager.run`:
skip inside the recheck interval; an invalid extraction or an empty
generation raises and is caught by the per-source `except` (no post, no
source update); otherwise create the draft, allocate a slot, schedule
it, and update the source's `last_checked_at`. -/
def processSource (env : AutoEnv) (st : RunState) (s : AutoSource) : RunState :=
  if skipSource env s then { st with skipped := st.skipped + 1 }
  else if env.extractValid s.id = false then { st with failed := st.failed + 1 }
  else if env.genOk s.id = false then { st with failed := st.failed + 1 }
  else
    { st with
      db := { sources := (updateAutomationSource st.db s.id env.now).sources,
              posts := st.db.posts ++
                [⟨s.id, Db.schedulePost (env.slotFor s.id) (Db.createPost "draft")⟩] },
      created := st.created + 1 }

/-- `AutomationManager.run`: fold the per-source step over the active
sources fetched once at the start. -/
def runAutomation (env : AutoEnv) (db : AutoDb) : RunState :=
  (getActiveAutomationSources db).foldl (processSource env) ⟨db, 0, 0, 0⟩

/-- Number of posts generated from a given source. -/
def postsFrom (db : AutoDb) (sid : Nat) : Nat :=
  db.posts.countP fun p => p.srcId = sid

/-- The source rows with a given id. -/
def sourcesWith (db : AutoDb) (sid : Nat) : List AutoSource :=
  db.sources.filter fun s => s.id = sid

end Auto

/-! ## PART 2: theorems -/

open List

namespace Automation

theorem allocRun_chain (d firstHour today : Nat) :
    ∀ (k : Nat) (prev : Option Slot),
      List.Chain' (fun a b : Slot => a.date + d ≤ b.date)
        (allocRun d firstHour today k prev) := by
  intro k
  induction k with
  | zero => intro prev; simp [allocRun]
  | succ n ih =>
    intro prev
    cases n with
    | zero => simp [allocRun]
    | succ m =>
      refine List.Chain'.cons ?_ (ih _)
      simp only [allocRun, findNextAvailableSlot]
      omega

end Automation

/-- C1: the slot-allocator claim as stated is false at
`d = 0`: two sequential allocations (today = 0, first hour 9) both land on
`(date 0, hour 9)`, so two allocations in the sequence share the same
`(date, hour)` pair. -/
theorem c1_counterexample :
    Automation.allocRun 0 9 0 2 none = [⟨0, 9⟩, ⟨0, 9⟩] ∧
      ¬ (Automation.allocRun 0 9 0 2 none).Pairwise (· ≠ ·) := by
  constructor
  · rfl
  · intro h
    simp [Automation.allocRun, Automation.findNextAvailableSlot] at h

/-- C1 (amended): for every minimum-days-between-posts `d ≥ 1`, every first
scheduling hour and every start day, `k` sequential allocations (each
allocation's slot seen by the next) produce dates that are non-decreasing with
each date at least `d` days after the previous one, and no two allocations in
the sequence share the same `(date, hour)` pair. -/
theorem c1_slot_allocator (d firstHour today k : Nat) (hd : 1 ≤ d) :
    List.Chain' (fun a b : Automation.Slot => a.date + d ≤ b.date)
      (Automation.allocRun d firstHour today k none) ∧
    (Automation.allocRun d firstHour today k none).Pairwise (· ≠ ·) := by
  have hchain := Automation.allocRun_chain d firstHour today k none
  refine ⟨hchain, ?_⟩
  have htrans : Transitive (fun a b : Automation.Slot => a.date + d ≤ b.date) := by
    intro a b c hab hbc
    omega
  have : IsTrans Automation.Slot (fun a b => a.date + d ≤ b.date) := ⟨htrans⟩
  have hp : (Automation.allocRun d firstHour today k none).Pairwise
      (fun a b => a.date + d ≤ b.date) := List.chain'_iff_pairwise.mp hchain
  refine hp.imp ?_
  intro a b hab heq
  subst heq
  omega

/-- C1 witness: a concrete run with `d = 1`, hour 9, today 0 and 3
allocations. -/
theorem c1_slot_allocator_witness :
    1 ≤ 1 ∧
    (List.Chain' (fun a b : Automation.Slot => a.date + 1 ≤ b.date)
      (Automation.allocRun 1 9 0 3 none) ∧
    (Automation.allocRun 1 9 0 3 none).Pairwise (· ≠ ·)) :=
  ⟨by decide, c1_slot_allocator 1 9 0 3 (by decide)⟩

namespace PostGen

theorem pyStrip_length_le (l : List Char) : (pyStrip l).length ≤ l.length := by
  have h1 := (List.dropWhile_sublist (l := l) isPySpace).length_le
  have h2 := (List.dropWhile_sublist (l := (l.dropWhile isPySpace).reverse) isPySpace).length_le
  simp only [pyStrip, List.length_reverse] at h2 ⊢
  omega

theorem fixHashtagsF_sublist : ∀ (f : Nat) (l : List Char), fixHashtagsF f l <+ l := by
  intro f
  induction f with
  | zero => intro l; simp [fixHashtagsF]
  | succ n ih =>
    intro l
    match l with
    | [] => simp [fixHashtagsF]
    | c :: rest =>
      rw [fixHashtagsF]
      split
      · rename_i hc
        subst hc
        split
        · refine List.Sublist.cons₂ _ ?_
          have hsp : rest.takeWhile isPySpace ++ rest.dropWhile isPySpace = rest :=
            List.takeWhile_append_dropWhile _ _
          have hw : (rest.dropWhile isPySpace).takeWhile isWordChar ++
              (rest.dropWhile isPySpace).dropWhile isWordChar = rest.dropWhile isPySpace :=
            List.takeWhile_append_dropWhile _ _
          calc (rest.dropWhile isPySpace).takeWhile isWordChar ++
                fixHashtagsF n ((rest.dropWhile isPySpace).dropWhile isWordChar)
              <+ (rest.dropWhile isPySpace).takeWhile isWordChar ++
                (rest.dropWhile isPySpace).dropWhile isWordChar :=
            (ih _).append_left _
            _ = rest.dropWhile isPySpace := hw
            _ <+ rest.takeWhile isPySpace ++ rest.dropWhile isPySpace :=
              List.sublist_append_right _ _
            _ = rest := hsp
        · exact List.Sublist.cons₂ _ (ih rest)
      · exact List.Sublist.cons₂ _ (ih rest)

theorem collapseNlF_sublist : ∀ (f : Nat) (l : List Char), collapseNlF f l <+ l := by
  intro f
  induction f with
  | zero => intro l; simp [collapseNlF]
  | succ n ih =>
    intro l
    match l with
    | [] => simp [collapseNlF]
    | c :: rest =>
      rw [collapseNlF]
      split
      · rename_i hc
        split
        · rename_i hrun
          have hsp : rest.takeWhile (fun x => x = '\n') ++
              rest.dropWhile (fun x => x = '\n') = rest := List.takeWhile_append_dropWhile _ _
          subst hc
          match hr : rest.takeWhile (fun x => x = '\n') with
          | [] => rw [hr] at hrun; simp at hrun
          | a :: run =>
            have ha : a = '\n' := by
              have : a ∈ rest.takeWhile (fun x => x = '\n') := by rw [hr]; exact List.mem_cons_self _ _
              have := List.mem_takeWhile_imp this
              simpa using this
            rw [hr] at hsp
            subst ha
            refine List.Sublist.cons₂ _ ?_
            calc '\n' :: collapseNlF n (rest.dropWhile (fun x => x = '\n'))
                <+ '\n' :: (run ++ rest.dropWhile (fun x => x = '\n')) :=
              List.Sublist.cons₂ _ ((ih _).trans (List.sublist_append_right _ _))
              _ = rest := hsp
        · rename_i hrun
          have hsp : rest.takeWhile (fun x => x = '\n') ++
              rest.dropWhile (fun x => x = '\n') = rest := List.takeWhile_append_dropWhile _ _
          rw [List.cons_append]
          refine List.Sublist.cons₂ _ ?_
          calc rest.takeWhile (fun x => x = '\n') ++
              collapseNlF n (rest.dropWhile (fun x => x = '\n'))
              <+ rest.takeWhile (fun x => x = '\n') ++ rest.dropWhile (fun x => x = '\n') :=
            (ih _).append_left _
            _ = rest := hsp
      · exact List.Sublist.cons₂ _ (ih rest)

end PostGen

namespace PostGen

theorem fixHashtagsF_count (a : Char) (ha : isPySpace a = false) :
    ∀ (f : Nat) (l : List Char), l.length ≤ f →
      (fixHashtagsF f l).count a = l.count a := by
  intro f
  induction f with
  | zero =>
    intro l hl
    have : l = [] := List.eq_nil_of_length_eq_zero (Nat.le_zero.mp hl)
    subst this
    rfl
  | succ n ih =>
    intro l hl
    match l with
    | [] => rfl
    | c :: rest =>
      have hrest : rest.length ≤ n := by simpa using hl
      rw [fixHashtagsF]
      split
      · rename_i hc
        subst hc
        split
        · have hr3 : ((rest.dropWhile isPySpace).dropWhile isWordChar).length ≤ n :=
            le_trans (le_trans (List.dropWhile_sublist _).length_le
              (List.dropWhile_sublist _).length_le) hrest
          have hws : (rest.takeWhile isPySpace).count a = 0 := by
            rw [List.count_eq_zero]
            intro hmem
            exact absurd (List.mem_takeWhile_imp hmem) (by simp [ha])
          conv_rhs => rw [← List.takeWhile_append_dropWhile (p := isPySpace) (l := rest)]
          conv_rhs =>
            rw [← List.takeWhile_append_dropWhile (p := isWordChar)
              (l := rest.dropWhile isPySpace)]
          simp only [List.count_cons, List.count_append, ih _ hr3, hws]
          omega
        · rw [List.count_cons, List.count_cons, ih _ hrest]
      · rw [List.count_cons, List.count_cons, ih _ hrest]

theorem collapseNlF_count (a : Char) (ha : ¬ a = '\n') :
    ∀ (f : Nat) (l : List Char), l.length ≤ f →
      (collapseNlF f l).count a = l.count a := by
  intro f
  induction f with
  | zero =>
    intro l hl
    have : l = [] := List.eq_nil_of_length_eq_zero (Nat.le_zero.mp hl)
    subst this
    rfl
  | succ n ih =>
    intro l hl
    match l with
    | [] => rfl
    | c :: rest =>
      have hrest : rest.length ≤ n := by simpa using hl
      have hr2 : (rest.dropWhile (fun x => x = '\n')).length ≤ n :=
        le_trans (List.dropWhile_sublist _).length_le hrest
      have hrun : (rest.takeWhile (fun x => x = '\n')).count a = 0 := by
        rw [List.count_eq_zero]
        intro hmem
        have := List.mem_takeWhile_imp hmem
        simp at this
        exact ha this
      rw [collapseNlF]
      split
      · rename_i hc
        subst hc
        split
        · conv_rhs =>
            rw [← List.takeWhile_append_dropWhile (p := fun x => x = '\n') (l := rest)]
          rw [List.count_cons, List.count_cons, List.count_cons, List.count_append,
            ih _ hr2, hrun]
          have ha' : ¬ '\n' = a := fun h => ha h.symm
          simp [ha']
        · conv_rhs =>
            rw [← List.takeWhile_append_dropWhile (p := fun x => x = '\n') (l := rest)]
          rw [List.cons_append, List.count_cons, List.count_cons, List.count_append,
            List.count_append, ih _ hr2]
      · rw [List.count_cons, List.count_cons, ih _ hrest]

end PostGen

namespace PostGen

theorem endsWithDots_of_sublist (s l : List Char) (hs : s <+ l) (hl : EndsWithDots l)
    (hc : s.count '.' = l.count '.') : EndsWithDots s := by
  obtain ⟨m, rfl⟩ := hl
  rw [List.sublist_append_iff] at hs
  obtain ⟨s1, s2, rfl, h1, h2⟩ := hs
  have c1 : s1.count '.' ≤ m.count '.' := h1.count_le '.'
  have c2 : s2.count '.' ≤ dots.count '.' := h2.count_le '.'
  have hd : dots.count '.' = 3 := by decide
  rw [List.count_append, List.count_append, hd] at hc
  rw [hd] at c2
  have hc2 : s2.count '.' = 3 := by omega
  have hlen : s2.length = 3 := by
    have hcl := List.count_le_length '.' s2
    have hll := h2.length_le
    simp only [dots, List.length_cons, List.length_nil] at hll
    omega
  have hs2 : s2 = dots := h2.eq_of_length (by simp [dots, hlen])
  exact ⟨s1, by rw [hs2]⟩

theorem endsWithDots_dropWhile (p : Char → Bool) (hp : p '.' = false) (l : List Char)
    (h : EndsWithDots l) : EndsWithDots (l.dropWhile p) := by
  obtain ⟨m, rfl⟩ := h
  induction m with
  | nil =>
    refine ⟨[], ?_⟩
    simp [dots, List.dropWhile_cons, hp]
  | cons c m ih =>
    rw [List.cons_append, List.dropWhile_cons]
    split
    · exact ih
    · exact ⟨c :: m, rfl⟩

theorem endsWithDots_pyStrip (l : List Char) (h : EndsWithDots l) :
    EndsWithDots (pyStrip l) := by
  unfold pyStrip
  obtain ⟨m, hm⟩ := endsWithDots_dropWhile isPySpace (by decide) l h
  rw [hm]
  have hrev : (m ++ dots).reverse = '.' :: '.' :: '.' :: m.reverse := by
    simp [dots]
  rw [hrev, List.dropWhile_cons]
  rw [if_neg (by simp [isPySpace])]
  exact ⟨m.reverse.reverse, by simp [dots]⟩

theorem truncLoop_length_le (maxLen : Nat) :
    ∀ (ss : List (List Char)) (acc : List Char),
      (acc.length : Int) ≤ (maxLen : Int) - 50 →
      ((truncLoop maxLen ss acc).length : Int) ≤ (maxLen : Int) - 50 := by
  intro ss
  induction ss with
  | nil =>
    intro acc h
    simpa [truncLoop] using h
  | cons s ss ih =>
    intro acc h
    rw [truncLoop]
    split
    · rename_i hcond
      apply ih
      simp only [List.length_append, dotSpace, List.length_cons, List.length_nil]
      push_cast
      omega
    · exact h

end PostGen

/-- C2: the post-processing claim as stated is false: with
`MAX_POST_LENGTH = 100` and the 102-character input `**` followed by 100
letters `a`, the input is longer than the configured maximum, yet the
markdown-stripping pass shortens it to 100 characters, so no truncation
happens and the output does not end with the ellipsis marker. -/
theorem c2_counterexample :
    100 < ('*' :: '*' :: List.replicate 100 'a').length ∧
      ¬ PostGen.EndsWithDots (PostGen.processGeneratedContent 100
        ('*' :: '*' :: List.replicate 100 'a')) := by
  constructor
  · simp
  · decide

/-- C2 (amended): for every configured maximum length of at least 50 and
every input, `_process_generated_content` returns text whose length never
exceeds the maximum, and whenever the markdown/HTML-stripped content was
longer than the maximum (i.e. truncation occurred) the returned text ends
with the ellipsis marker `...`. -/
theorem c2_post_processing (maxLen : Nat) (content : List Char) (h50 : 50 ≤ maxLen) :
    (PostGen.processGeneratedContent maxLen content).length ≤ maxLen ∧
      (maxLen < (PostGen.markupStripped content).length →
        PostGen.EndsWithDots (PostGen.processGeneratedContent maxLen content)) := by
  unfold PostGen.processGeneratedContent
  set c5 := (if maxLen < (PostGen.markupStripped content).length then
      PostGen.pyStrip (PostGen.truncLoop maxLen
        (PostGen.splitSep PostGen.dotSpace (PostGen.markupStripped content)) []) ++
        PostGen.dots
    else PostGen.markupStripped content) with hc5
  have hsub6 : PostGen.fixHashtags c5 <+ c5 := PostGen.fixHashtagsF_sublist _ _
  have hsub7 : PostGen.collapseNl (PostGen.fixHashtags c5) <+ PostGen.fixHashtags c5 :=
    PostGen.collapseNlF_sublist _ _
  have hlen : (PostGen.pyStrip (PostGen.collapseNl (PostGen.fixHashtags c5))).length ≤
      c5.length :=
    le_trans (PostGen.pyStrip_length_le _) (le_trans hsub7.length_le hsub6.length_le)
  have hc5len : c5.length ≤ maxLen := by
    rw [hc5]
    split
    · rename_i hlt
      have ht := PostGen.truncLoop_length_le maxLen
        (PostGen.splitSep PostGen.dotSpace (PostGen.markupStripped content)) []
        (by simp only [List.length_nil]; push_cast; omega)
      have hst := PostGen.pyStrip_length_le (PostGen.truncLoop maxLen
        (PostGen.splitSep PostGen.dotSpace (PostGen.markupStripped content)) [])
      have hd3 : (PostGen.dots).length = 3 := by decide
      rw [List.length_append, hd3]
      omega
    · rename_i hge
      omega
  refine ⟨le_trans hlen hc5len, ?_⟩
  intro hlt
  have e5 : PostGen.EndsWithDots c5 := by
    rw [hc5, if_pos hlt]
    exact ⟨_, rfl⟩
  have e6 : PostGen.EndsWithDots (PostGen.fixHashtags c5) :=
    PostGen.endsWithDots_of_sublist _ _ hsub6 e5
      (PostGen.fixHashtagsF_count '.' (by decide) _ _ le_rfl)
  have e7 : PostGen.EndsWithDots (PostGen.collapseNl (PostGen.fixHashtags c5)) :=
    PostGen.endsWithDots_of_sublist _ _ hsub7 e6
      (PostGen.collapseNlF_count '.' (by decide) _ _ le_rfl)
  exact PostGen.endsWithDots_pyStrip _ e7

/-- C2 witness: maximum 50 and 60 letters `a`; the stripped content is
longer than the maximum, so the output (which is just the ellipsis) ends
with the marker and is within budget. -/
theorem c2_post_processing_witness :
    50 ≤ 50 ∧
    ((PostGen.processGeneratedContent 50 (List.replicate 60 'a')).length ≤ 50 ∧
      (50 < (PostGen.markupStripped (List.replicate 60 'a')).length →
        PostGen.EndsWithDots (PostGen.processGeneratedContent 50 (List.replicate 60 'a')))) :=
  ⟨by decide, c2_post_processing 50 (List.replicate 60 'a') (by decide)⟩

/-- C3: the generation claim as stated is false for requested variant
count `N = 0`: the loop body never runs, so zero backend attempts are
made, yet the empty `posts` list makes `generate` raise `ValueError`. -/
theorem c3_counterexample :
    Gen.generate ⟨true, true, true⟩ "claude" 0 (fun _ _ => some "post") =
      .error "Failed to generate any posts" ∧
    Gen.genAttempts ⟨true, true, true⟩ "claude" 0 = 0 := by
  constructor
  · rfl
  · rfl

/-- C3 (amended): for every client configuration, preferred backend,
requested variant count `N` and per-variant outcome, `generate` returns
at most `N` variants, raises if and only if the number of successfully
generated variants is 0 (which also happens with zero attempts, namely
when `N = 0` or no client is configured), and with at least one success
returns the partial list of exactly the successful variants without
raising. -/
theorem c3_generate (cl : Gen.Clients) (preferred : String) (numVariants : Nat)
    (outcome : Nat → Gen.Backend → Option String) :
    ((∃ e, Gen.generate cl preferred numVariants outcome = .error e) ↔
      Gen.genSuccesses cl preferred numVariants outcome = 0) ∧
    (∀ l, Gen.generate cl preferred numVariants outcome = .ok l →
      l.length ≤ numVariants ∧
        l.length = Gen.genSuccesses cl preferred numVariants outcome ∧ 0 < l.length) := by
  set posts := (List.range numVariants).filterMap (fun i =>
    match Gen.pickClient preferred cl with
    | none => none
    | some b => (outcome i b).map fun c => (⟨c, b, i + 1⟩ : Gen.GeneratedPost))
    with hposts
  have hlen : posts.length = Gen.genSuccesses cl preferred numVariants outcome := by
    rw [hposts, List.length_filterMap_eq_countP]
    unfold Gen.genSuccesses
    apply List.countP_congr
    intro i _
    cases Gen.pickClient preferred cl with
    | none => simp
    | some b => simp
  have hgen : Gen.generate cl preferred numVariants outcome =
      if posts.isEmpty then .error "Failed to generate any posts" else .ok posts := rfl
  by_cases hemp : posts.isEmpty
  · rw [hgen, if_pos hemp]
    have h0 : posts.length = 0 := by
      rw [List.isEmpty_iff] at hemp
      rw [hemp]
      rfl
    constructor
    · exact ⟨fun _ => by omega, fun _ => ⟨_, rfl⟩⟩
    · intro l hl
      exact absurd hl (by simp)
  · rw [hgen, if_neg hemp]
    have hpos : 0 < posts.length := by
      rcases Nat.eq_zero_or_pos posts.length with h | h
      · exact absurd (by rw [List.isEmpty_iff]; exact List.length_eq_zero.mp h) hemp
      · exact h
    constructor
    · constructor
      · rintro ⟨e, he⟩
        exact absurd he (by simp)
      · intro hz
        omega
    · intro l hl
      have hleq : l = posts := by
        injection hl with h
        exact h.symm
      subst hleq
      refine ⟨?_, hlen, hpos⟩
      rw [hposts]
      exact le_trans (List.length_filterMap_le _ _) (by simp)

/-- C3 witness: one configured client, two requested variants, the first
failing and the second succeeding: a partial list of one variant is
returned without raising. -/
theorem c3_generate_witness :
    [(⟨"v", Gen.Backend.gemini, 2⟩ : Gen.GeneratedPost)].length ≤ 2 ∧
      [(⟨"v", Gen.Backend.gemini, 2⟩ : Gen.GeneratedPost)].length =
        Gen.genSuccesses ⟨false, true, false⟩ "gemini" 2
          (fun i _ => if i = 1 then some "v" else none) ∧
      0 < [(⟨"v", Gen.Backend.gemini, 2⟩ : Gen.GeneratedPost)].length :=
  (c3_generate ⟨false, true, false⟩ "gemini" 2
    (fun i _ => if i = 1 then some "v" else none)).2
    [⟨"v", Gen.Backend.gemini, 2⟩] rfl

theorem publishWithOfficialApi_success (hasOauth : Bool) :
    (LClient.publishWithOfficialApi hasOauth).success = false := by
  cases hasOauth <;> rfl

/-- C10: in `linkedin_client`, the final fallback
(`_prepare_manual_workflow`) unconditionally returns success with a
synthetic post id, so every call that passes the rate-limit pre-check
returns `success=True` — even when no post reached the network — and
the `All publishing methods failed` branch is unreachable. -/
theorem c10_manual_fallback (dailyLimit delaySeconds : Nat)
    (hasCreds libAvail hasOauth : Bool) (st : LClient.ClientState)
    (env : LClient.CallEnv)
    (h : (LClient.canPostNow dailyLimit delaySeconds st env.now).1 = true) :
    (LClient.prepareManualWorkflow env).success = true ∧
    (LClient.prepareManualWorkflow env).postId.isSome = true ∧
    (LClient.publishPost dailyLimit delaySeconds hasCreds libAvail hasOauth
      st env).1.success = true ∧
    ¬ (LClient.publishPost dailyLimit delaySeconds hasCreds libAvail hasOauth
      st env).1.errorMessage = some "All publishing methods failed" := by
  refine ⟨rfl, rfl, ?_⟩
  unfold LClient.publishPost
  rcases hc : LClient.canPostNow dailyLimit delaySeconds st env.now with ⟨b, reason⟩
  rw [hc] at h
  simp only at h
  subst h
  simp only
  set step := LClient.publishWithUnofficialApi hasCreds libAvail st env with hstep
  by_cases hs : step.result.success
  · rw [if_pos hs]
    refine ⟨hs, ?_⟩
    rcases henv : env.postUpdateResponse with _ | r
    · rw [hstep] at hs
      unfold LClient.publishWithUnofficialApi LClient.postUpdatePart at hs
      split at hs
      · rw [henv] at hs
        exact absurd hs (by simp)
      · split at hs
        · rename_i heq
          rw [henv] at hs
          exact absurd hs (by simp)
        · exact absurd hs (by simp)
    · rw [hstep]
      unfold LClient.publishWithUnofficialApi LClient.postUpdatePart
      split
      · rw [henv]
        simp
      · split
        · rw [henv]
          simp
        · simp
  · rw [if_neg hs]
    rw [if_neg (by rw [publishWithOfficialApi_success]; exact Bool.false_ne_true)]
    rw [if_pos (show (LClient.prepareManualWorkflow env).success = true from rfl)]
    exact ⟨rfl, by simp [LClient.prepareManualWorkflow]⟩

/-- C10 witness: a fresh publisher, no credentials, a call at time 0. -/
theorem c10_manual_fallback_witness :
    (LClient.canPostNow 5 30 LClient.initialClientState (0 : Int)).1 = true ∧
    ((LClient.prepareManualWorkflow ⟨0, false, none⟩).success = true ∧
      (LClient.prepareManualWorkflow ⟨0, false, none⟩).postId.isSome = true ∧
      (LClient.publishPost 5 30 false true false LClient.initialClientState
        ⟨0, false, none⟩).1.success = true ∧
      ¬ (LClient.publishPost 5 30 false true false LClient.initialClientState
        ⟨0, false, none⟩).1.errorMessage = some "All publishing methods failed") :=
  ⟨rfl, c10_manual_fallback 5 30 false true false LClient.initialClientState
    ⟨0, false, none⟩ rfl⟩

/-- C5: the claim as stated is false for the legacy fallback-chain
publisher: `_publish_with_unofficial_api` classifies the structurally
empty response `{}` as a success (with a null post id) whenever
`post_update` returns without raising. -/
theorem c5_counterexample :
    (LClient.publishWithUnofficialApi true true
      { LClient.initialClientState with authenticated := true }
      ⟨0, true, some LClient.emptyClientResponse⟩).result.success = true ∧
    (LClient.publishWithUnofficialApi true true
      { LClient.initialClientState with authenticated := true }
      ⟨0, true, some LClient.emptyClientResponse⟩).result.postId = none := by
  constructor
  · rfl
  · rfl

/-- C5 (amended): in the replacement publisher (`linkedin_connector`),
`_validate_and_build_result` classifies a response as a success only
when an `activity`/`id` key holds a truthy value containing `urn:li:`;
every response carrying no such identifier key — e.g. `{}` — is a
failure with a non-null error message.  The legacy `linkedin_client`
unofficial path, by contrast, marks any non-raising `post_update`
response as success (see the counterexample). -/
theorem c5_response_validation :
    (∀ (r : LConn.ConnResponse) (m : String),
      (LConn.validateAndBuildResult r m).success = true →
        ∃ u, Py.pyOr r.activity r.id = some u ∧
          Py.truthyStr u = true ∧ Py.containsSub Py.urnPat u.toList = true) ∧
    (∀ (r : LConn.ConnResponse) (m : String), r.activity = none → r.id = none →
      (LConn.validateAndBuildResult r m).success = false ∧
        ¬ (LConn.validateAndBuildResult r m).errorMessage = none) := by
  constructor
  · intro r m h
    unfold LConn.validateAndBuildResult at h
    split at h
    · split at h
      · rename_i urn heq
        split at h
        · rename_i hcond
          have hc2 : Py.truthyStr urn = true ∧
              Py.containsSub Py.urnPat urn.toList = true := by
            simpa using hcond
          exact ⟨urn, heq, hc2.1, hc2.2⟩
        · exact absurd h (by simp [LConn.invalidResponseResult])
      · exact absurd h (by simp [LConn.invalidResponseResult])
    · exact absurd h (by simp [LConn.invalidResponseResult])
  · intro r m ha hi
    unfold LConn.validateAndBuildResult
    rw [ha, hi]
    simp [LConn.invalidResponseResult]

/-- C5 witness: the empty response dictionary is a failure with an
error message, on both publish paths' method names. -/
theorem c5_response_validation_witness :
    (LConn.validateAndBuildResult LConn.emptyConnResponse "create_ugc_post").success = false ∧
      ¬ (LConn.validateAndBuildResult LConn.emptyConnResponse
        "create_ugc_post").errorMessage = none :=
  c5_response_validation.2 LConn.emptyConnResponse "create_ugc_post" rfl rfl

/-- C6: the claim as stated is false: `mark_post_published` never clears
`scheduled_for`, so publishing a scheduled post leaves a row with
status `published` and a non-null `scheduled_for`, violating the
claimed "scheduled_for non-null iff status=scheduled". -/
theorem c6_counterexample :
    Db.InvClaimed (Db.schedulePost 5 (Db.createPost "draft")) ∧
      ¬ Db.InvClaimed (Db.markPostPublished 9 (some "urn:li:x") (some "url")
        (Db.schedulePost 5 (Db.createPost "draft"))) := by
  constructor
  · decide
  · decide

/-- C6 (amended): the operations maintain only the forward implications:
a `scheduled` row has a non-null `scheduled_for` and a `published` row a
non-null `published_at`; creation as a draft establishes this and
schedule, mark-published (with whatever reference values the publish
result carried, possibly null) and the failure update preserve it.
`scheduled_for` is not cleared on publishing or failure, and the
external reference columns may be null on a published row. -/
theorem c6_lifecycle :
    Db.InvPost (Db.createPost "draft") ∧
    (∀ (p : Db.PostRec) (t : Nat), Db.InvPost p → Db.InvPost (Db.schedulePost t p)) ∧
    (∀ (p : Db.PostRec) (now : Nat) (lid lurl : Option String),
      Db.InvPost p → Db.InvPost (Db.markPostPublished now lid lurl p)) ∧
    (∀ (p : Db.PostRec) (n : String), Db.InvPost p → Db.InvPost (Db.updatePostFailed n p)) := by
  have hsp : ("scheduled" : String) ≠ "published" := by decide
  have hfs : ("failed" : String) ≠ "scheduled" := by decide
  have hfp : ("failed" : String) ≠ "published" := by decide
  have hps : ("published" : String) ≠ "scheduled" := by decide
  refine ⟨by decide, ?_, ?_, ?_⟩
  · intro p t hp
    unfold Db.InvPost Db.schedulePost
    simp [hsp]
  · intro p now lid lurl hp
    unfold Db.InvPost Db.markPostPublished
    simp [hps]
  · intro p n hp
    unfold Db.InvPost Db.updatePostFailed
    simp [hfs, hfp]

/-- C6 witness: publishing a scheduled draft keeps the invariant. -/
theorem c6_lifecycle_witness :
    Db.InvPost (Db.markPostPublished 9 (some "urn:li:x") (some "u")
      (Db.schedulePost 5 (Db.createPost "draft"))) :=
  c6_lifecycle.2.2.1 (Db.schedulePost 5 (Db.createPost "draft")) 9
    (some "urn:li:x") (some "u") (by decide)

/-- C9: the claim as stated is false for the legacy `linkedin_client`
publisher: it has no attempted-login cache, so after a failed
authentication the next `publish_post` call silently re-attempts the
login — two calls with failing credentials perform two network login
attempts. -/
theorem c9_counterexample :
    (LClient.runPublishes 10 0 true true false LClient.initialClientState
      [⟨0, false, none⟩, ⟨100, false, none⟩]).loginAttempts = 2 ∧
    ¬ (LClient.runPublishes 10 0 true true false LClient.initialClientState
      [⟨0, false, none⟩, ⟨100, false, none⟩]).loginAttempts ≤ 1 := by
  constructor
  · rfl
  · decide

/-- C9 (amended): in the replacement connector publisher, authentication
is lazy and cached per instance: the first `publish_post` call performs
at most one login attempt (exactly one when the library and credentials
are present) and leaves the attempt recorded; a call on an
authenticated instance performs no login and keeps the state; and after
a failed attempt every later call performs no login, keeps the state and
surfaces an `Authentication failed.` failure (an explicit retry —
a fresh publisher — is required).  The legacy `linkedin_client`
publisher re-attempts the login on every call (see the
counterexample). -/
theorem c9_auth_caching :
    (∀ (env : LConn.ConnEnv) (hasLink : Bool),
      (LConn.connPublishPost LConn.initialConnState env hasLink).2.2 =
        (if env.libAvail && env.hasCreds then 1 else 0) ∧
      ((LConn.connPublishPost LConn.initialConnState env hasLink).2.1).authAttempted = true) ∧
    (∀ (st : LConn.ConnState) (env : LConn.ConnEnv) (hasLink : Bool),
      st.authenticated = true →
      (LConn.connPublishPost st env hasLink).2.2 = 0 ∧
        (LConn.connPublishPost st env hasLink).2.1 = st) ∧
    (∀ (st : LConn.ConnState) (env : LConn.ConnEnv) (hasLink : Bool),
      st.authenticated = false → st.authAttempted = true →
      (LConn.connPublishPost st env hasLink).2.2 = 0 ∧
        (LConn.connPublishPost st env hasLink).2.1 = st ∧
        (LConn.connPublishPost st env hasLink).1.success = false ∧
        (LConn.connPublishPost st env hasLink).1.errorMessage =
          some "Authentication failed.") := by
  refine ⟨?_, ?_, ?_⟩
  · intro env hasLink
    rcases env with ⟨la, hc, ls, tm, lm, ar⟩
    cases la <;> cases hc <;> cases ls <;> cases hasLink <;>
      simp [LConn.connPublishPost, LConn.connAuthenticate, LConn.initialConnState]
  · intro st env hasLink hauth
    rcases st with ⟨a, b⟩
    simp only at hauth
    subst hauth
    cases hasLink <;>
      simp [LConn.connPublishPost, LConn.connAuthenticate]
  · intro st env hasLink hauth hatt
    rcases st with ⟨a, b⟩
    simp only at hauth hatt
    subst hauth
    subst hatt
    cases hasLink <;>
      simp [LConn.connPublishPost, LConn.connAuthenticate]

/-- C9 witness: a publisher whose first attempt failed: the next call
performs no login and surfaces the failure. -/
theorem c9_auth_caching_witness :
    (LConn.connPublishPost ⟨false, true⟩ ⟨true, true, true, true, true, none⟩
      false).2.2 = 0 ∧
    (LConn.connPublishPost ⟨false, true⟩ ⟨true, true, true, true, true, none⟩
      false).2.1 = ⟨false, true⟩ ∧
    (LConn.connPublishPost ⟨false, true⟩ ⟨true, true, true, true, true, none⟩
      false).1.success = false ∧
    (LConn.connPublishPost ⟨false, true⟩ ⟨true, true, true, true, true, none⟩
      false).1.errorMessage = some "Authentication failed." :=
  c9_auth_caching.2.2 ⟨false, true⟩ ⟨true, true, true, true, true, none⟩ false rfl rfl

namespace LClient

theorem canPostNow_limit (dailyLimit delaySeconds : Nat) (st : ClientState) (now : Int)
    (h : dailyLimit ≤ st.postsToday) :
    canPostNow dailyLimit delaySeconds st now = (false, "Daily limit reached") := by
  unfold canPostNow
  rw [if_pos h]

theorem canPostNow_delay (dailyLimit delaySeconds : Nat) (st : ClientState) (now t : Int)
    (hlim : st.postsToday < dailyLimit) (hlast : st.lastPostTime = some t)
    (hdelta : now - t < (delaySeconds : Int)) :
    canPostNow dailyLimit delaySeconds st now = (false, "Must wait between posts") := by
  unfold canPostNow
  rw [if_neg (by omega), hlast]
  simp only
  rw [if_pos hdelta]

theorem publishPost_rejected (dailyLimit delaySeconds : Nat)
    (hasCreds libAvail hasOauth : Bool) (st : ClientState) (env : CallEnv)
    (h : (canPostNow dailyLimit delaySeconds st env.now).1 = false) :
    publishPost dailyLimit delaySeconds hasCreds libAvail hasOauth st env =
      ({ success := false,
         errorMessage := some ("Rate limit: " ++
           (canPostNow dailyLimit delaySeconds st env.now).2),
         methodUsed := some "rate_limit_check" }, st, 0, 0) := by
  unfold publishPost
  rcases hc : canPostNow dailyLimit delaySeconds st env.now with ⟨b, reason⟩
  rw [hc] at h
  simp only at h
  subst h
  simp only

theorem postUpdatePart_calls (env : CallEnv) (logins : Nat) :
    (postUpdatePart env logins).postUpdateCalls ≤ 1 := by
  unfold postUpdatePart
  cases env.postUpdateResponse <;> simp

theorem publishPost_accepted (dailyLimit delaySeconds : Nat)
    (hasCreds libAvail hasOauth : Bool) (st : ClientState) (env : CallEnv)
    (h : (canPostNow dailyLimit delaySeconds st env.now).1 = true) :
    (publishPost dailyLimit delaySeconds hasCreds libAvail hasOauth st env).1.success = true ∧
    (publishPost dailyLimit delaySeconds hasCreds libAvail hasOauth
      st env).2.1.postsToday = st.postsToday + 1 ∧
    (publishPost dailyLimit delaySeconds hasCreds libAvail hasOauth
      st env).2.2.2 ≤ 1 := by
  have hstepCalls :
      (publishWithUnofficialApi hasCreds libAvail st env).postUpdateCalls ≤ 1 := by
    unfold publishWithUnofficialApi
    split
    · exact postUpdatePart_calls env 0
    · rcases ha : authenticate hasCreds libAvail st env with ⟨ok, st', n⟩
      cases ok
      · simp
      · exact postUpdatePart_calls env n
  unfold publishPost
  rcases hc : canPostNow dailyLimit delaySeconds st env.now with ⟨b, reason⟩
  rw [hc] at h
  simp only at h
  subst h
  simp only
  set step := publishWithUnofficialApi hasCreds libAvail st env with hstep
  by_cases hs : step.result.success = true
  · rw [if_pos hs]
    exact ⟨hs, rfl, hstepCalls⟩
  · rw [if_neg hs]
    rw [if_neg (by rw [publishWithOfficialApi_success]; exact Bool.false_ne_true)]
    rw [if_pos (show (prepareManualWorkflow env).success = true from rfl)]
    exact ⟨rfl, rfl, hstepCalls⟩

theorem runPublishes_cons (dailyLimit delaySeconds : Nat)
    (hasCreds libAvail hasOauth : Bool) (st : ClientState) (e : CallEnv)
    (es : List CallEnv) :
    runPublishes dailyLimit delaySeconds hasCreds libAvail hasOauth st (e :: es) =
      ⟨(publishPost dailyLimit delaySeconds hasCreds libAvail hasOauth st e).1 ::
        (runPublishes dailyLimit delaySeconds hasCreds libAvail hasOauth
          (publishPost dailyLimit delaySeconds hasCreds libAvail hasOauth st e).2.1
          es).results,
       (runPublishes dailyLimit delaySeconds hasCreds libAvail hasOauth
          (publishPost dailyLimit delaySeconds hasCreds libAvail hasOauth st e).2.1
          es).state,
       (publishPost dailyLimit delaySeconds hasCreds libAvail hasOauth st e).2.2.1 +
        (runPublishes dailyLimit delaySeconds hasCreds libAvail hasOauth
          (publishPost dailyLimit delaySeconds hasCreds libAvail hasOauth st e).2.1
          es).loginAttempts,
       (publishPost dailyLimit delaySeconds hasCreds libAvail hasOauth st e).2.2.2 +
        (runPublishes dailyLimit delaySeconds hasCreds libAvail hasOauth
          (publishPost dailyLimit delaySeconds hasCreds libAvail hasOauth st e).2.1
          es).postUpdateCalls⟩ := rfl

theorem runPublishes_success_counts (dailyLimit delaySeconds : Nat)
    (hasCreds libAvail hasOauth : Bool) :
    ∀ (envs : List CallEnv) (st : ClientState),
      (∀ r ∈ (runPublishes dailyLimit delaySeconds hasCreds libAvail hasOauth
        st envs).results, r.success = true) →
      (runPublishes dailyLimit delaySeconds hasCreds libAvail hasOauth
        st envs).state.postsToday = st.postsToday + envs.length ∧
      (runPublishes dailyLimit delaySeconds hasCreds libAvail hasOauth
        st envs).postUpdateCalls ≤ envs.length := by
  intro envs
  induction envs with
  | nil =>
    intro st h
    simp [runPublishes]
  | cons e es ih =>
    intro st h
    rw [runPublishes_cons] at h ⊢
    have hsucc : (publishPost dailyLimit delaySeconds hasCreds libAvail hasOauth
        st e).1.success = true := by
      exact h _ (List.mem_cons_self _ _)
    have hcan : (canPostNow dailyLimit delaySeconds st e.now).1 = true := by
      by_cases hc : (canPostNow dailyLimit delaySeconds st e.now).1 = true
      · exact hc
      · have hrej := publishPost_rejected dailyLimit delaySeconds hasCreds libAvail
          hasOauth st e (Bool.not_eq_true _ ▸ hc)
        rw [hrej] at hsucc
        exact absurd hsucc (by simp)
    have hacc := publishPost_accepted dailyLimit delaySeconds hasCreds libAvail
      hasOauth st e hcan
    have htail := ih (publishPost dailyLimit delaySeconds hasCreds libAvail hasOauth
        st e).2.1 (fun r hr => h r (List.mem_cons_of_mem _ hr))
    refine ⟨?_, ?_⟩
    · simp only [List.length_cons]
      omega
    · simp only [List.length_cons]
      omega

end LClient

/-- C4: the claim's "exactly C network publish attempts occur" is false:
with daily cap 1 and failing credentials, the single successful publish
goes through the no-network manual-workflow fallback, so the cap is
reached and attempt 2 is rejected although zero network publish
attempts (`post_update` calls) were ever made. -/
theorem c4_counterexample :
    (∀ r ∈ (LClient.runPublishes 1 0 true true false LClient.initialClientState
      [⟨0, false, none⟩]).results, r.success = true) ∧
    (LClient.runPublishes 1 0 true true false LClient.initialClientState
      [⟨0, false, none⟩]).results.length = 1 ∧
    (LClient.publishPost 1 0 true true false
      (LClient.runPublishes 1 0 true true false LClient.initialClientState
        [⟨0, false, none⟩]).state ⟨1000, false, none⟩).1.methodUsed =
      some "rate_limit_check" ∧
    (LClient.runPublishes 1 0 true true false LClient.initialClientState
      [⟨0, false, none⟩]).postUpdateCalls = 0 ∧
    ¬ (LClient.runPublishes 1 0 true true false LClient.initialClientState
      [⟨0, false, none⟩]).postUpdateCalls = 1 := by
  refine ⟨?_, rfl, rfl, rfl, ?_⟩
  · decide
  · decide

/-- C4 (amended): with daily cap `C`, after `C` successful publishes on a
fresh publisher the next attempt is rejected by the pre-check as a
rate-limit failure before any network call (no login, no `post_update`),
and at most `C` network publish attempts occurred over the successful
calls (exactly `C` only when every publish reached the unofficial
network path); the same pre-check also rejects, with no network call, an
attempt made less than the configured inter-post delay after the last
successful publish. -/
theorem c4_rate_limiting :
    (∀ (C delaySeconds : Nat) (hasCreds libAvail hasOauth : Bool)
        (envs : List LClient.CallEnv) (e : LClient.CallEnv),
      (∀ r ∈ (LClient.runPublishes C delaySeconds hasCreds libAvail hasOauth
        LClient.initialClientState envs).results, r.success = true) →
      envs.length = C →
      (LClient.publishPost C delaySeconds hasCreds libAvail hasOauth
          (LClient.runPublishes C delaySeconds hasCreds libAvail hasOauth
            LClient.initialClientState envs).state e) =
        ({ success := false, errorMessage := some ("Rate limit: " ++ "Daily limit reached"),
           methodUsed := some "rate_limit_check" },
          (LClient.runPublishes C delaySeconds hasCreds libAvail hasOauth
            LClient.initialClientState envs).state, 0, 0) ∧
      (LClient.runPublishes C delaySeconds hasCreds libAvail hasOauth
        LClient.initialClientState envs).postUpdateCalls ≤ C) ∧
    (∀ (C delaySeconds : Nat) (hasCreds libAvail hasOauth : Bool)
        (st : LClient.ClientState) (e : LClient.CallEnv) (t : Int),
      st.postsToday < C → st.lastPostTime = some t →
      e.now - t < (delaySeconds : Int) →
      (LClient.publishPost C delaySeconds hasCreds libAvail hasOauth st e) =
        ({ success := false, errorMessage := some ("Rate limit: " ++ "Must wait between posts"),
           methodUsed := some "rate_limit_check" }, st, 0, 0)) := by
  constructor
  · intro C delaySeconds hasCreds libAvail hasOauth envs e hall hlen
    have hrun := LClient.runPublishes_success_counts C delaySeconds hasCreds libAvail
      hasOauth envs LClient.initialClientState hall
    have htoday : (LClient.runPublishes C delaySeconds hasCreds libAvail hasOauth
        LClient.initialClientState envs).state.postsToday = C := by
      have : LClient.initialClientState.postsToday = 0 := rfl
      omega
    have hcan := LClient.canPostNow_limit C delaySeconds
      (LClient.runPublishes C delaySeconds hasCreds libAvail hasOauth
        LClient.initialClientState envs).state e.now (by omega)
    have hrej := LClient.publishPost_rejected C delaySeconds hasCreds libAvail hasOauth
      (LClient.runPublishes C delaySeconds hasCreds libAvail hasOauth
        LClient.initialClientState envs).state e (by rw [hcan])
    rw [hcan] at hrej
    exact ⟨hrej, by omega⟩
  · intro C delaySeconds hasCreds libAvail hasOauth st e t hlim hlast hdelta
    have hcan := LClient.canPostNow_delay C delaySeconds st e.now t hlim hlast hdelta
    have hrej := LClient.publishPost_rejected C delaySeconds hasCreds libAvail hasOauth
      st e (by rw [hcan])
    rw [hcan] at hrej
    exact hrej

/-- C4 witness: cap 1, one successful call at time 0, rejection of the
second; and the delay rejection at 10 seconds with a 30-second delay. -/
theorem c4_rate_limiting_witness :
    ((LClient.publishPost 1 30 false true false
        (LClient.runPublishes 1 30 false true false LClient.initialClientState
          [⟨0, false, none⟩]).state ⟨1000, false, none⟩) =
      ({ success := false, errorMessage := some ("Rate limit: " ++ "Daily limit reached"),
         methodUsed := some "rate_limit_check" },
        (LClient.runPublishes 1 30 false true false LClient.initialClientState
          [⟨0, false, none⟩]).state, 0, 0) ∧
      (LClient.runPublishes 1 30 false true false LClient.initialClientState
        [⟨0, false, none⟩]).postUpdateCalls ≤ 1) ∧
    ((LClient.publishPost 5 30 false true false ⟨1, some 0, false⟩ ⟨10, false, none⟩) =
      ({ success := false, errorMessage := some ("Rate limit: " ++ "Must wait between posts"),
         methodUsed := some "rate_limit_check" }, ⟨1, some 0, false⟩, 0, 0)) :=
  ⟨(c4_rate_limiting.1 1 30 false true false [⟨0, false, none⟩] ⟨1000, false, none⟩
      (by decide) rfl),
   (c4_rate_limiting.2 5 30 false true false ⟨1, some 0, false⟩ ⟨10, false, none⟩ 0
      (by decide) rfl (by decide))⟩

namespace Sched

theorem mem_getPostsToPublish (db : SDb) (now : Nat) (p : QPost)
    (h : p ∈ getPostsToPublish db now) :
    p ∈ db.posts ∧ p.row.status = "scheduled" := by
  unfold getPostsToPublish at h
  rw [List.mem_filter] at h
  refine ⟨h.1, ?_⟩
  have h2 := h.2
  rw [Bool.and_eq_true] at h2
  exact beq_iff_eq.mp h2.1

theorem processPost_status (now : Nat) (outcome : Nat → PubOutcome) (db : SDb)
    (q : QPost) :
    ∀ p ∈ (processPost now outcome db q).2.posts, p.id = q.id →
      p.row.status = "published" ∨ p.row.status = "failed" := by
  intro p hp hid
  unfold processPost at hp
  split at hp
  · simp only [dbMarkPostPublished, List.mem_map] at hp
    obtain ⟨q', hq', hfq⟩ := hp
    by_cases hqe : q'.id = q.id
    · rw [if_pos hqe] at hfq
      left
      rw [← hfq]
      rfl
    · rw [if_neg hqe] at hfq
      exact absurd (hfq ▸ hid) hqe
  · simp only [dbUpdatePostFailed, List.mem_map] at hp
    obtain ⟨q', hq', hfq⟩ := hp
    by_cases hqe : q'.id = q.id
    · rw [if_pos hqe] at hfq
      right
      rw [← hfq]
      rfl
    · rw [if_neg hqe] at hfq
      exact absurd (hfq ▸ hid) hqe

theorem processPost_preserves_done (now : Nat) (outcome : Nat → PubOutcome)
    (db : SDb) (q : QPost) (pid : Nat)
    (h : ∀ p ∈ db.posts, p.id = pid →
      p.row.status = "published" ∨ p.row.status = "failed") :
    ∀ p ∈ (processPost now outcome db q).2.posts, p.id = pid →
      p.row.status = "published" ∨ p.row.status = "failed" := by
  intro p hp hid
  unfold processPost at hp
  split at hp
  · simp only [dbMarkPostPublished, List.mem_map] at hp
    obtain ⟨q', hq', hfq⟩ := hp
    by_cases hqe : q'.id = q.id
    · rw [if_pos hqe] at hfq
      left
      rw [← hfq]
      rfl
    · rw [if_neg hqe] at hfq
      subst hfq
      exact h _ hq' hid
  · simp only [dbUpdatePostFailed, List.mem_map] at hp
    obtain ⟨q', hq', hfq⟩ := hp
    by_cases hqe : q'.id = q.id
    · rw [if_pos hqe] at hfq
      right
      rw [← hfq]
      rfl
    · rw [if_neg hqe] at hfq
      subst hfq
      exact h _ hq' hid

theorem processList_preserves_done (now : Nat) (outcome : Nat → PubOutcome) :
    ∀ (qs : List QPost) (db : SDb) (pid : Nat),
      (∀ p ∈ db.posts, p.id = pid →
        p.row.status = "published" ∨ p.row.status = "failed") →
      ∀ p ∈ (processList now outcome db qs).2.posts, p.id = pid →
        p.row.status = "published" ∨ p.row.status = "failed" := by
  intro qs
  induction qs with
  | nil => intro db pid h; exact h
  | cons q qs ih =>
    intro db pid h
    exact ih (processPost now outcome db q).2 pid
      (processPost_preserves_done now outcome db q pid h)

theorem processList_done (now : Nat) (outcome : Nat → PubOutcome) :
    ∀ (qs : List QPost) (db : SDb) (q : QPost), q ∈ qs →
      ∀ p ∈ (processList now outcome db qs).2.posts, p.id = q.id →
        p.row.status = "published" ∨ p.row.status = "failed" := by
  intro qs
  induction qs with
  | nil => intro db q hq; exact absurd hq (List.not_mem_nil _)
  | cons q' qs ih =>
    intro db q hq
    rcases List.mem_cons.mp hq with hq | hq
    · subst hq
      exact processList_preserves_done now outcome qs (processPost now outcome db q).2
        q.id (processPost_status now outcome db q)
    · exact ih (processPost now outcome db q').2 q hq

theorem processPost_mem_of_ne (now : Nat) (outcome : Nat → PubOutcome)
    (db : SDb) (q : QPost) (p : QPost) (hp : p ∈ db.posts) (hne : ¬ p.id = q.id) :
    p ∈ (processPost now outcome db q).2.posts := by
  unfold processPost
  split
  · simp only [dbMarkPostPublished, List.mem_map]
    exact ⟨p, hp, if_neg hne⟩
  · simp only [dbUpdatePostFailed, List.mem_map]
    exact ⟨p, hp, if_neg hne⟩

theorem processList_mem_of_ne (now : Nat) (outcome : Nat → PubOutcome) :
    ∀ (qs : List QPost) (db : SDb) (p : QPost), p ∈ db.posts →
      (∀ q ∈ qs, ¬ p.id = q.id) → p ∈ (processList now outcome db qs).2.posts := by
  intro qs
  induction qs with
  | nil => intro db p hp _; exact hp
  | cons q qs ih =>
    intro db p hp hne
    exact ih (processPost now outcome db q).2 p
      (processPost_mem_of_ne now outcome db q p hp (hne q (List.mem_cons_self _ _)))
      (fun q' hq' => hne q' (List.mem_cons_of_mem _ hq'))

end Sched

/-- C7: the Scheduled-Queue Processor never reprocesses a finished post:
(1) a post selected (and hence published or failed) by a completed run is
never selected again by a later run on the resulting database, whatever
the later `now` is; (2) a post whose status is `failed` is never in the
selection of any run; (3) published/failed rows pass through a run
unchanged (given distinct primary keys). -/
theorem c7_queue_idempotent :
    (∀ (db : Sched.SDb) (now now' : Nat) (outcome : Nat → Sched.PubOutcome)
        (p : Sched.QPost),
      p ∈ Sched.getPostsToPublish db now →
      ∀ p' ∈ Sched.getPostsToPublish
          (Sched.processScheduledPosts db now true outcome).2 now', ¬ p'.id = p.id) ∧
    (∀ (db : Sched.SDb) (now : Nat) (p : Sched.QPost), p ∈ db.posts →
      p.row.status = "failed" → p ∉ Sched.getPostsToPublish db now) ∧
    (∀ (db : Sched.SDb) (now : Nat) (authOk : Bool)
        (outcome : Nat → Sched.PubOutcome) (p : Sched.QPost),
      (db.posts.map (·.id)).Nodup → p ∈ db.posts →
      (p.row.status = "published" ∨ p.row.status = "failed") →
      p ∈ (Sched.processScheduledPosts db now authOk outcome).2.posts) := by
  refine ⟨?_, ?_, ?_⟩
  · intro db now now' outcome p hp p' hp' hid
    have hne1 : (Sched.getPostsToPublish db now).isEmpty = false := by
      rcases hemp : Sched.getPostsToPublish db now with _ | ⟨x, xs⟩
      · rw [hemp] at hp
        exact absurd hp (List.not_mem_nil p)
      · rfl
    have hproc : (Sched.processScheduledPosts db now true outcome).2 =
        (Sched.processList now outcome db (Sched.getPostsToPublish db now)).2 := by
      unfold Sched.processScheduledPosts
      rw [hne1]
      simp
    rw [hproc] at hp'
    have hmem := Sched.mem_getPostsToPublish _ now' p' hp'
    have hdone := Sched.processList_done now outcome (Sched.getPostsToPublish db now)
      db p hp p' hmem.1 hid
    rcases hdone with h | h <;> rw [hmem.2] at h <;> exact absurd h (by decide)
  · intro db now p hp hfail hsel
    have := Sched.mem_getPostsToPublish db now p hsel
    rw [hfail] at this
    exact absurd this.2 (by decide)
  · intro db now authOk outcome p hnd hp hstat
    unfold Sched.processScheduledPosts
    split
    · exact hp
    · split
      · exact hp
      · apply Sched.processList_mem_of_ne now outcome (Sched.getPostsToPublish db now)
          db p hp
        intro q hq hid
        have hqm := Sched.mem_getPostsToPublish db now q hq
        have hpq : p = q := List.inj_on_of_nodup_map hnd hp hqm.1 hid
        rw [hpq, hqm.2] at hstat
        rcases hstat with h | h <;> exact absurd h (by decide)

/-- C7 witness: one due scheduled post (id 1) published by the first
run; it is not selected by a second run, a failed row is never selected,
and finished rows survive a run. -/
theorem c7_queue_idempotent_witness :
    (∀ p' ∈ Sched.getPostsToPublish
        (Sched.processScheduledPosts
          ⟨[⟨1, Db.schedulePost 3 (Db.createPost "draft")⟩], [⟨1, 3, "pending"⟩]⟩ 5 true
          (fun _ => ⟨true, some "urn:li:9", some "u", ""⟩)).2 5,
      ¬ p'.id = (⟨1, Db.schedulePost 3 (Db.createPost "draft")⟩ : Sched.QPost).id) :=
  c7_queue_idempotent.1
    ⟨[⟨1, Db.schedulePost 3 (Db.createPost "draft")⟩], [⟨1, 3, "pending"⟩]⟩ 5 5
    (fun _ => ⟨true, some "urn:li:9", some "u", ""⟩)
    ⟨1, Db.schedulePost 3 (Db.createPost "draft")⟩ (by decide)

namespace Auto

theorem filter_update_ne (l : List AutoSource) (sid2 : Nat) (t : Int) (sid : Nat)
    (hne : ¬ sid2 = sid) :
    (l.map fun s => if s.id = sid2 then { s with lastCheckedAt := some t } else s).filter
      (fun s => s.id = sid) = l.filter (fun s => s.id = sid) := by
  induction l with
  | nil => rfl
  | cons x xs ih =>
    simp only [List.map_cons, List.filter_cons]
    by_cases hx : x.id = sid2
    · by_cases hxs : x.id = sid
      · exact absurd (hx ▸ hxs) hne
      · rw [if_pos hx]
        simp [hxs, ih]
    · rw [if_neg hx]
      simp [ih]

theorem filter_update_eq (l : List AutoSource) (sid : Nat) (t : Int) :
    (l.map fun s => if s.id = sid then { s with lastCheckedAt := some t } else s).filter
      (fun s => s.id = sid) =
      (l.filter (fun s => s.id = sid)).map
        (fun s => { s with lastCheckedAt := some t }) := by
  induction l with
  | nil => rfl
  | cons x xs ih =>
    simp only [List.map_cons, List.filter_cons]
    by_cases hx : x.id = sid
    · rw [if_pos hx]
      simp [hx, ih]
    · rw [if_neg hx]
      simp [hx, ih]

theorem processSource_db_unchanged (env : AutoEnv) (st : RunState) (s : AutoSource)
    (h : skipSource env s = true ∨ env.extractValid s.id = false ∨
      env.genOk s.id = false) :
    (processSource env st s).db = st.db := by
  unfold processSource
  by_cases hsk : skipSource env s = true
  · rw [if_pos hsk]
  · rw [if_neg hsk]
    by_cases hex : env.extractValid s.id = false
    · rw [if_pos hex]
    · rw [if_neg hex]
      by_cases hgen : env.genOk s.id = false
      · rw [if_pos hgen]
      · rw [if_neg hgen]
        rcases h with h | h | h
        · exact absurd h hsk
        · exact absurd h hex
        · exact absurd h hgen

theorem processSource_success_db (env : AutoEnv) (st : RunState) (s : AutoSource)
    (hsk : skipSource env s = false) (hex : env.extractValid s.id = true)
    (hgen : env.genOk s.id = true) :
    (processSource env st s).db =
      { sources := (updateAutomationSource st.db s.id env.now).sources,
        posts := st.db.posts ++
          [⟨s.id, Db.schedulePost (env.slotFor s.id) (Db.createPost "draft")⟩] } := by
  unfold processSource
  rw [if_neg (by rw [hsk]; exact Bool.false_ne_true),
    if_neg (by rw [hex]; simp),
    if_neg (by rw [hgen]; simp)]

theorem processSource_frame (env : AutoEnv) (st : RunState) (s₂ : AutoSource)
    (sid : Nat) (hne : ¬ s₂.id = sid) :
    sourcesWith (processSource env st s₂).db sid = sourcesWith st.db sid ∧
    postsFrom (processSource env st s₂).db sid = postsFrom st.db sid := by
  by_cases hsk : skipSource env s₂ = true
  · rw [processSource_db_unchanged env st s₂ (Or.inl hsk)]
    exact ⟨rfl, rfl⟩
  · by_cases hex : env.extractValid s₂.id = true
    · by_cases hgen : env.genOk s₂.id = true
      · rw [processSource_success_db env st s₂ (by simpa using hsk) hex hgen]
        constructor
        · unfold sourcesWith updateAutomationSource
          exact filter_update_ne st.db.sources s₂.id env.now sid hne
        · unfold postsFrom
          rw [List.countP_append]
          simp [hne]
      · rw [processSource_db_unchanged env st s₂ (Or.inr (Or.inr (by simpa using hgen)))]
        exact ⟨rfl, rfl⟩
    · rw [processSource_db_unchanged env st s₂ (Or.inr (Or.inl (by simpa using hex)))]
      exact ⟨rfl, rfl⟩

theorem foldProcess_frame (env : AutoEnv) :
    ∀ (L : List AutoSource) (st : RunState) (sid : Nat),
      (∀ s₂ ∈ L, ¬ s₂.id = sid) →
      sourcesWith (L.foldl (processSource env) st).db sid = sourcesWith st.db sid ∧
      postsFrom (L.foldl (processSource env) st).db sid = postsFrom st.db sid := by
  intro L
  induction L with
  | nil => intro st sid _; exact ⟨rfl, rfl⟩
  | cons s₁ L ih =>
    intro st sid hne
    rw [List.foldl_cons]
    have h1 := processSource_frame env st s₁ sid (hne s₁ (List.mem_cons_self _ _))
    have h2 := ih (processSource env st s₁) sid
      (fun s₂ hs₂ => hne s₂ (List.mem_cons_of_mem _ hs₂))
    exact ⟨h2.1.trans h1.1, h2.2.trans h1.2⟩

end Auto

namespace Auto

theorem processSource_success_views (env : AutoEnv) (st : RunState) (s : AutoSource)
    (hsk : skipSource env s = false) (hex : env.extractValid s.id = true)
    (hgen : env.genOk s.id = true) :
    sourcesWith (processSource env st s).db s.id =
      (sourcesWith st.db s.id).map (fun x => { x with lastCheckedAt := some env.now }) ∧
    postsFrom (processSource env st s).db s.id = postsFrom st.db s.id + 1 := by
  rw [processSource_success_db env st s hsk hex hgen]
  constructor
  · unfold sourcesWith updateAutomationSource
    exact filter_update_eq st.db.sources s.id env.now
  · unfold postsFrom
    rw [List.countP_append]
    simp

theorem foldProcess_spec (env : AutoEnv) :
    ∀ (L : List AutoSource) (st : RunState) (s : AutoSource),
      s ∈ L → (L.map (·.id)).Nodup →
      (skipSource env s = false → env.extractValid s.id = false →
        sourcesWith (L.foldl (processSource env) st).db s.id = sourcesWith st.db s.id ∧
        postsFrom (L.foldl (processSource env) st).db s.id = postsFrom st.db s.id) ∧
      (skipSource env s = false → env.extractValid s.id = true → env.genOk s.id = true →
        postsFrom (L.foldl (processSource env) st).db s.id = postsFrom st.db s.id + 1 ∧
        (∀ s' ∈ sourcesWith (L.foldl (processSource env) st).db s.id,
          s'.lastCheckedAt = some env.now)) := by
  intro L
  induction L with
  | nil => intro st s hs _; exact absurd hs (List.not_mem_nil _)
  | cons s₁ L ih =>
    intro st s hs hnd
    rw [List.map_cons, List.nodup_cons] at hnd
    rcases List.mem_cons.mp hs with heq | hmem
    · subst heq
      have htail : ∀ s₂ ∈ L, ¬ s₂.id = s.id := by
        intro s₂ h₂ hcontra
        exact hnd.1 (hcontra ▸ List.mem_map_of_mem (·.id) h₂)
      constructor
      · intro hsk hex
        have hstep := processSource_db_unchanged env st s (Or.inr (Or.inl hex))
        rw [List.foldl_cons]
        have hframe := foldProcess_frame env L (processSource env st s) s.id htail
        rw [hstep] at hframe
        exact hframe
      · intro hsk hex hgen
        rw [List.foldl_cons]
        have hviews := processSource_success_views env st s hsk hex hgen
        have hframe := foldProcess_frame env L (processSource env st s) s.id htail
        constructor
        · rw [hframe.2, hviews.2]
        · intro s' hs'
          rw [hframe.1, hviews.1] at hs'
          obtain ⟨x, hx, hfx⟩ := List.mem_map.mp hs'
          rw [← hfx]
    · have hne : ¬ s₁.id = s.id := by
        intro hcontra
        exact hnd.1 (hcontra ▸ List.mem_map_of_mem (·.id) hmem)
      rw [List.foldl_cons]
      have hframe := processSource_frame env st s₁ s.id hne
      have ihs := ih (processSource env st s₁) s hmem hnd.2
      constructor
      · intro hsk hex
        have h := ihs.1 hsk hex
        exact ⟨h.1.trans hframe.1, h.2.trans hframe.2⟩
      · intro hsk hex hgen
        have h := ihs.2 hsk hex hgen
        exact ⟨by rw [h.1, hframe.2], h.2⟩

end Auto

/-- C8: in every automation run over active sources with distinct ids, a
non-skipped source whose extraction is invalid contributes zero new
posts and its rows (in particular `last_checked_at`) are unchanged, and
its failure never prevents the other sources of the same run: every
other non-skipped source with a valid extraction and successful
generation still gets exactly one new scheduled post and its
`last_checked_at` advanced to the run's time. -/
theorem c8_source_isolation (env : Auto.AutoEnv) (db : Auto.AutoDb)
    (hnd : ((Auto.getActiveAutomationSources db).map (·.id)).Nodup) :
    (∀ s ∈ Auto.getActiveAutomationSources db,
      Auto.skipSource env s = false → env.extractValid s.id = false →
        Auto.sourcesWith (Auto.runAutomation env db).db s.id =
          Auto.sourcesWith db s.id ∧
        Auto.postsFrom (Auto.runAutomation env db).db s.id = Auto.postsFrom db s.id) ∧
    (∀ s ∈ Auto.getActiveAutomationSources db,
      Auto.skipSource env s = false → env.extractValid s.id = true →
        env.genOk s.id = true →
        Auto.postsFrom (Auto.runAutomation env db).db s.id =
          Auto.postsFrom db s.id + 1 ∧
        (∀ s' ∈ Auto.sourcesWith (Auto.runAutomation env db).db s.id,
          s'.lastCheckedAt = some env.now)) := by
  constructor
  · intro s hs hsk hex
    exact (Auto.foldProcess_spec env (Auto.getActiveAutomationSources db)
      ⟨db, 0, 0, 0⟩ s hs hnd).1 hsk hex
  · intro s hs hsk hex hgen
    exact (Auto.foldProcess_spec env (Auto.getActiveAutomationSources db)
      ⟨db, 0, 0, 0⟩ s hs hnd).2 hsk hex hgen

/-- C8 witness: two active sources; source 1's extraction is invalid
(zero posts, unchanged row), source 2 still succeeds. -/
theorem c8_source_isolation_witness :
    (Auto.sourcesWith
        (Auto.runAutomation ⟨100, false, fun sid => ¬ sid = 1, fun _ => true, fun _ => 7⟩
          ⟨[⟨1, "u1", none, true⟩, ⟨2, "u2", none, true⟩], []⟩).db 1 =
      Auto.sourcesWith ⟨[⟨1, "u1", none, true⟩, ⟨2, "u2", none, true⟩], []⟩ 1 ∧
    Auto.postsFrom
        (Auto.runAutomation ⟨100, false, fun sid => ¬ sid = 1, fun _ => true, fun _ => 7⟩
          ⟨[⟨1, "u1", none, true⟩, ⟨2, "u2", none, true⟩], []⟩).db 1 =
      Auto.postsFrom ⟨[⟨1, "u1", none, true⟩, ⟨2, "u2", none, true⟩], []⟩ 1) ∧
    (Auto.postsFrom
        (Auto.runAutomation ⟨100, false, fun sid => ¬ sid = 1, fun _ => true, fun _ => 7⟩
          ⟨[⟨1, "u1", none, true⟩, ⟨2, "u2", none, true⟩], []⟩).db 2 =
      Auto.postsFrom ⟨[⟨1, "u1", none, true⟩, ⟨2, "u2", none, true⟩], []⟩ 2 + 1) :=
  ⟨(c8_source_isolation ⟨100, false, fun sid => ¬ sid = 1, fun _ => true, fun _ => 7⟩
      ⟨[⟨1, "u1", none, true⟩, ⟨2, "u2", none, true⟩], []⟩ (by decide)).1
      ⟨1, "u1", none, true⟩ (by decide) rfl (by decide),
   ((c8_source_isolation ⟨100, false, fun sid => ¬ sid = 1, fun _ => true, fun _ => 7⟩
      ⟨[⟨1, "u1", none, true⟩, ⟨2, "u2", none, true⟩], []⟩ (by decide)).2
      ⟨2, "u2", none, true⟩ (by decide) rfl (by decide) (by decide)).1⟩
